import Mathlib

/-!
Verification development for the FinOpt statement-import and budget-threshold
pipeline.  Python sources are shallowly embedded:

* `Decimal` values are modelled as exact rationals (`Rat`); the inputs the
  pipeline feeds to `Decimal` are plain sign/digits/point numerals, which the
  model `decParse` covers (no exponents or special values).
* `datetime` values are modelled by the `DateTime` structure; the ambient
  clock (`datetime.utcnow()`) is passed explicitly as a `now` argument, and
  `uuid.uuid4()` is modelled by an explicit id-supply argument
  (each generated id is an independent draw, so indexing the supply by row
  position is faithful).
* Python exceptions that the code raises and catches become `Except`/`Option`
  results.
-/

namespace FinOpt

/-! ## Character and string helpers (Python `str` semantics) -/

/-- Whitespace characters recognised by Python `str.strip` / regex `\s`
(restricted to the characters that can occur in statement data). -/
def isPySpace (c : Char) : Bool :=
  c = ' ' || c = '\t' || c = '\n' || c = '\r' || c = '\u000b' || c = '\u000c' || c = '\u00A0'

/-- `str.strip()` on a list of characters. -/
def listStrip (cs : List Char) : List Char :=
  ((cs.dropWhile isPySpace).reverse.dropWhile isPySpace).reverse

/-- `str.strip()`. -/
def pyStrip (s : String) : String :=
  String.mk (listStrip s.toList)

/-- `c in s` for a single character. -/
def containsChar (c : Char) (cs : List Char) : Bool :=
  cs.any (fun x => x = c)

/-- `str.replace(a, b)` for single characters. -/
def replaceChar (a b : Char) (cs : List Char) : List Char :=
  cs.map (fun c => if c = a then b else c)

/-- `str.replace(a, "")` for a single character. -/
def removeChar (a : Char) (cs : List Char) : List Char :=
  cs.filter (fun c => c ≠ a)

/-- Helper for `str.rindex`: index of the last occurrence of `c`
(meaningful only when `c` occurs). -/
def lastIdxAux (c : Char) : List Char → Nat → Nat → Nat
  | [], _, acc => acc
  | x :: xs, i, acc => lastIdxAux c xs (i + 1) (if x = c then i else acc)

/-- `str.rindex(c)` (callers only use it when `c` is present). -/
def lastIdxOf (c : Char) (cs : List Char) : Nat :=
  lastIdxAux c cs 0 0

/-- Numeric value of a list of decimal digits. -/
def digitsVal (cs : List Char) : Nat :=
  cs.foldl (fun a c => 10 * a + (c.toNat - '0'.toNat)) 0

/-- An ASCII quote character, used when rendering Python error messages. -/
def sq : String := String.singleton (Char.ofNat 39)

/-! ## The Python `Decimal` constructor (restricted to plain numerals) -/

/-- Unsigned part of a decimal numeric string: digits with at most one point,
at least one digit overall. -/
def decParseUnsigned (cs : List Char) : Option Rat :=
  let ip := cs.takeWhile Char.isDigit
  let rest := cs.dropWhile Char.isDigit
  match rest with
  | [] => if ip.isEmpty then none else some ((digitsVal ip : Nat) : Rat)
  | '.' :: fr =>
      if fr.all Char.isDigit && !(ip.isEmpty && fr.isEmpty) then
        some ((digitsVal ip : Rat) + (digitsVal fr : Rat) / ((10 : Rat) ^ fr.length))
      else none
  | _ => none

/-- `Decimal(value)` on the plain numeral fragment of the decimal string
grammar (optional sign, digits, optional single point; surrounding
whitespace allowed, as in Python). -/
def decParse (s : String) : Option Rat :=
  match listStrip s.toList with
  | '+' :: rest => decParseUnsigned rest
  | '-' :: rest => (decParseUnsigned rest).map (fun q => -q)
  | rest => decParseUnsigned rest

/-! ## `_parse_amount` (statement_parser.py) -/

/-- The cleaning pipeline of `_parse_amount` (everything before the
`Decimal` call): strip, disambiguate comma/period using the later separator,
then remove spaces, non-breaking spaces and currency symbols. -/
def cleanAmount (value : String) : List Char :=
  let v0 := listStrip value.toList
  let v1 :=
    if containsChar ',' v0 && containsChar '.' v0 then
      if lastIdxOf ',' v0 > lastIdxOf '.' v0 then
        replaceChar ',' '.' (removeChar '.' v0)
      else
        removeChar ',' v0
    else if containsChar ',' v0 then
      replaceChar ',' '.' v0
    else v0
  removeChar '£' (removeChar '$' (removeChar '€'
    (removeChar '\u00A0' (removeChar ' ' v1))))

/-- `_parse_amount`: clean the string, then convert with `Decimal`. -/
def parse_amount (value : String) : Except String Rat :=
  match decParse (String.mk (cleanAmount value)) with
  | some q => .ok q
  | none =>
      .error ("Impossible de parser le montant: " ++ sq
        ++ String.mk (cleanAmount value) ++ sq)

/-! ## Dates -/

/-- A `datetime.datetime` value. -/
structure DateTime where
  year : Nat
  month : Nat
  day : Nat
  hour : Nat := 0
  minute : Nat := 0
  second : Nat := 0
deriving DecidableEq, Repr

def isLeapYear (y : Nat) : Bool :=
  y % 4 = 0 && (y % 100 ≠ 0 || y % 400 = 0)

def daysInMonth (y m : Nat) : Nat :=
  if m = 2 then (if isLeapYear y then 29 else 28)
  else if m = 4 || m = 6 || m = 9 || m = 11 then 30
  else 31

/-- The `datetime(year, month, day)` constructor: `none` models the
`ValueError` raised on out-of-range components. -/
def mkDatetime (y m d : Nat) : Option DateTime :=
  if 1 ≤ y && y ≤ 9999 && 1 ≤ m && m ≤ 12 && 1 ≤ d && d ≤ daysInMonth y m then
    some ⟨y, m, d, 0, 0, 0⟩
  else none

/-- Split a list of characters on a separator character. -/
def splitOnChar (sep : Char) : List Char → List (List Char)
  | [] => [[]]
  | c :: rest =>
      let r := splitOnChar sep rest
      if c = sep then [] :: r
      else match r with
        | [] => [[c]]
        | g :: gs => (c :: g) :: gs

/-- Python `str.split` on a single separator character (total and
structural, unlike `String.splitOn`). -/
def pySplit (sep : Char) (s : String) : List String :=
  (splitOnChar sep s.toList).map String.mk

/-- `strptime` `%d` field: one or two digits, value 1..31. -/
def dayField (cs : List Char) : Option Nat :=
  if (cs.length = 1 || cs.length = 2) && cs.all Char.isDigit then
    let v := digitsVal cs
    if 1 ≤ v && v ≤ 31 then some v else none
  else none

/-- `strptime` `%m` field: one or two digits, value 1..12. -/
def monthField (cs : List Char) : Option Nat :=
  if (cs.length = 1 || cs.length = 2) && cs.all Char.isDigit then
    let v := digitsVal cs
    if 1 ≤ v && v ≤ 12 then some v else none
  else none

/-- `strptime` `%Y` field: exactly four digits. -/
def yearField (cs : List Char) : Option Nat :=
  if cs.length = 4 && cs.all Char.isDigit then some (digitsVal cs) else none

/-- One `strptime` attempt for a `year sep month sep day` format. -/
def parseYMD (sep : Char) (cs : List Char) : Option DateTime :=
  match splitOnChar sep cs with
  | [y, m, d] => do
      let yv ← yearField y
      let mv ← monthField m
      let dv ← dayField d
      mkDatetime yv mv dv
  | _ => none

/-- One `strptime` attempt for a `day sep month sep year` format. -/
def parseDMY (sep : Char) (cs : List Char) : Option DateTime :=
  match splitOnChar sep cs with
  | [d, m, y] => do
      let dv ← dayField d
      let mv ← monthField m
      let yv ← yearField y
      mkDatetime yv mv dv
  | _ => none

/-- One `strptime` attempt for a `month sep day sep year` format. -/
def parseMDY (sep : Char) (cs : List Char) : Option DateTime :=
  match splitOnChar sep cs with
  | [m, d, y] => do
      let mv ← monthField m
      let dv ← dayField d
      let yv ← yearField y
      mkDatetime yv mv dv
  | _ => none

/-- `_parse_date`: try the `DATE_FORMATS` list in order; `none` models the
final `ValueError`. -/
def parse_date (value : String) : Option DateTime :=
  let v := listStrip value.toList
  parseYMD '-' v <|> parseDMY '/' v <|> parseMDY '/' v <|>
    parseYMD '/' v <|> parseDMY '-' v <|> parseDMY '.' v

/-! ## Entities (domain/entities.py) -/

inductive TransactionStatus
  | pending
  | completed
  | cancelled
deriving DecidableEq, Repr

/-- The `Transaction` entity (fields set by the statement parser; optional
fields the parser leaves at their defaults are omitted). -/
structure Transaction where
  id : String
  user_id : String
  account_id : String
  amount : Rat
  currency : String
  date : DateTime
  description : String
  is_manual : Bool
  status : TransactionStatus
deriving DecidableEq, Repr

/-! ## Column detection (statement_parser.py) -/

def DATE_COLUMNS : List String :=
  ["date", "Date", "DATE", "fecha", "transaction_date", "Transaction Date", "Datum"]

def DESCRIPTION_COLUMNS : List String :=
  ["description", "Description", "DESCRIPTION",
   "libelle", "Libellé", "libellé", "LIBELLE",
   "label", "Label", "LABEL",
   "memo", "Memo",
   "reference", "Reference"]

def AMOUNT_COLUMNS : List String :=
  ["amount", "Amount", "AMOUNT", "montant", "Montant", "MONTANT", "Betrag"]

def DEBIT_COLUMNS : List String :=
  ["debit", "Debit", "DEBIT", "débit", "Débit"]

def CREDIT_COLUMNS : List String :=
  ["credit", "Credit", "CREDIT", "crédit", "Crédit"]

/-- `_find_column`: first header whose stripped form is a recognised synonym. -/
def find_column (headers : List String) (candidates : List String) : Option String :=
  headers.find? (fun h => candidates.contains (pyStrip h))

/-- A row record as produced by `csv.DictReader` (or built from spreadsheet /
table cells): an association list from header to cell string. -/
abbrev Row : Type := List (String × String)

/-- `row.get(key, "")`. -/
def rowGetD (row : Row) (key : String) : String :=
  match row.find? (fun kv => kv.1 = key) with
  | some kv => kv.2
  | none => ""

/-- Python `repr` of a list of strings (used in one error message). -/
def pyReprList (xs : List String) : String :=
  "[" ++ String.intercalate ", " (xs.map (fun s => sq ++ s ++ sq)) ++ "]"

/-! ## `_row_to_transaction` (statement_parser.py) -/

/-- The debit/credit fallback in `_row_to_transaction`: amount starts at 0,
a present debit value sets `-abs(debit)`, a present credit value then sets
`abs(credit)`, and a final zero is the `Montant manquant` error. -/
def fallback_amount (row : Row) (debit_col credit_col : Option String) :
    Except String Rat :=
  let afterDebit : Except String Rat :=
    match debit_col with
    | some c =>
        if pyStrip (rowGetD row c) ≠ "" then
          (parse_amount (rowGetD row c)).map (fun q => -|q|)
        else .ok 0
    | none => .ok 0
  let afterCredit : Except String Rat :=
    afterDebit.bind (fun a =>
      match credit_col with
      | some c =>
          if pyStrip (rowGetD row c) ≠ "" then
            (parse_amount (rowGetD row c)).map (fun q => |q|)
          else .ok a
      | none => .ok a)
  afterCredit.bind (fun a => if a = 0 then .error "Montant manquant" else .ok a)

/-- `_row_to_transaction`.  `txnId` stands for the fresh `uuid.uuid4()` and
`now` for `datetime.utcnow()`. -/
def row_to_transaction (row : Row) (headers : List String)
    (user_id account_id currency : String) (txnId : String) (now : DateTime) :
    Except String Transaction :=
  let date_col := find_column headers DATE_COLUMNS
  let desc_col := find_column headers DESCRIPTION_COLUMNS
  let amount_col := find_column headers AMOUNT_COLUMNS
  let debit_col := find_column headers DEBIT_COLUMNS
  let credit_col := find_column headers CREDIT_COLUMNS
  if amount_col.isNone && debit_col.isNone && credit_col.isNone then
    .error ("Colonne montant introuvable. Colonnes disponibles: " ++ pyReprList headers)
  else
    let date_val :=
      match date_col with
      | some c =>
          if pyStrip (rowGetD row c) ≠ "" then
            (parse_date (rowGetD row c)).getD now
          else now
      | none => now
    let description :=
      match desc_col with
      | some c => pyStrip (rowGetD row c)
      | none => ""
    if description = "" then .error "Description manquante"
    else
      let amountE : Except String Rat :=
        match amount_col with
        | some c =>
            if pyStrip (rowGetD row c) ≠ "" then parse_amount (rowGetD row c)
            else fallback_amount row debit_col credit_col
        | none => fallback_amount row debit_col credit_col
      amountE.map (fun amount =>
        { id := txnId, user_id := user_id, account_id := account_id,
          amount := amount, currency := currency, date := date_val,
          description := description, is_manual := false,
          status := .completed })

/-- The date `_row_to_transaction` resolves: the date column's parse when it
succeeds, else the processing time. -/
def resolvedDate (row : Row) (headers : List String) (now : DateTime) : DateTime :=
  match find_column headers DATE_COLUMNS with
  | some c =>
      if pyStrip (rowGetD row c) ≠ "" then (parse_date (rowGetD row c)).getD now
      else now
  | none => now

/-- The description `_row_to_transaction` resolves. -/
def resolvedDescription (row : Row) (headers : List String) : String :=
  match find_column headers DESCRIPTION_COLUMNS with
  | some c => pyStrip (rowGetD row c)
  | none => ""

/-- The amount `_row_to_transaction` resolves (amount column first, else the
debit/credit fallback). -/
def resolvedAmount (row : Row) (headers : List String) : Except String Rat :=
  match find_column headers AMOUNT_COLUMNS with
  | some c =>
      if pyStrip (rowGetD row c) ≠ "" then parse_amount (rowGetD row c)
      else fallback_amount row (find_column headers DEBIT_COLUMNS)
        (find_column headers CREDIT_COLUMNS)
  | none =>
      fallback_amount row (find_column headers DEBIT_COLUMNS)
        (find_column headers CREDIT_COLUMNS)

/-! ## `parse_csv` (row loop; the `csv.DictReader` lexing of the byte stream
into header names and row records is the library boundary of the model) -/

/-- The skip test `all(not v.strip() for v in row.values() if v)`: every cell
is blank after stripping (falsy cells are skipped by the generator, which is
the same condition for string values). -/
def rowIsEmpty (r : Row) : Bool :=
  r.all (fun kv => pyStrip kv.2 = "")

/-- The `parse_csv` accumulation loop over row records, carrying the
`enumerate(reader, start=2)` index.  `mkId` is the uuid supply. -/
def parse_csv_go (headers : List String) (uid acct cur : String)
    (mkId : Nat → String) (now : DateTime) :
    Nat → List Row → List Transaction × List String
  | _, [] => ([], [])
  | i, r :: rest =>
      let acc := parse_csv_go headers uid acct cur mkId now (i + 1) rest
      if rowIsEmpty r then acc
      else
        match row_to_transaction r headers uid acct cur (mkId i) now with
        | .ok t => (t :: acc.1, acc.2)
        | .error e => (acc.1, ("Ligne " ++ toString i ++ ": " ++ e) :: acc.2)

/-- `parse_csv`, starting at data line 2 (the header is line 1). -/
def parse_csv_rows (headers : List String) (rows : List Row)
    (uid acct cur : String) (mkId : Nat → String) (now : DateTime) :
    List Transaction × List String :=
  parse_csv_go headers uid acct cur mkId now 2 rows

/-! ## `parse_json` (statement_parser.py) -/

/-- One element of the top-level JSON array: either an object (values already
stringified, `str(v) if v is not None else ""`) or a non-object element. -/
inductive JsonItem
  | obj (fields : List (String × String))
  | nonObject
deriving Repr

/-- The `parse_json` accumulation loop over array elements,
`enumerate(data, start=1)`. -/
def parse_json_go (uid acct cur : String) (mkId : Nat → String) (now : DateTime) :
    Nat → List JsonItem → List Transaction × List String
  | _, [] => ([], [])
  | i, .nonObject :: rest =>
      let acc := parse_json_go uid acct cur mkId now (i + 1) rest
      (acc.1, ("Element " ++ toString i ++ ": doit etre un objet") :: acc.2)
  | i, .obj fields :: rest =>
      let acc := parse_json_go uid acct cur mkId now (i + 1) rest
      match row_to_transaction fields (fields.map (fun kv => kv.1)) uid acct cur
          (mkId i) now with
      | .ok t => (t :: acc.1, acc.2)
      | .error e => (acc.1, ("Element " ++ toString i ++ ": " ++ e) :: acc.2)

/-- `parse_json` on an already-decoded top-level array (JSON decoding itself
is the library boundary; a decode failure or non-array top level returns a
single error before this loop runs). -/
def parse_json_items (items : List JsonItem) (uid acct cur : String)
    (mkId : Nat → String) (now : DateTime) : List Transaction × List String :=
  parse_json_go uid acct cur mkId now 1 items

/-! ## `parse_excel` (statement_parser.py) -/

/-- A worksheet cell as yielded by `openpyxl` with `values_only=True`:
empty (`None`), a calendar value, or any other value already rendered by
`str` (numbers keep their Python rendering). -/
inductive ExcelCell
  | empty
  | date (d : DateTime)
  | str (s : String)
deriving Repr

def pad2 (n : Nat) : String :=
  if n < 10 then "0" ++ toString n else toString n

def pad4 (n : Nat) : String :=
  if n < 10 then "000" ++ toString n
  else if n < 100 then "00" ++ toString n
  else if n < 1000 then "0" ++ toString n
  else toString n

/-- `val.strftime("%Y-%m-%d")`. -/
def strftimeYMD (d : DateTime) : String :=
  pad4 d.year ++ "-" ++ pad2 d.month ++ "-" ++ pad2 d.day

/-- Cell rendering for excel data rows: dates via `strftime("%Y-%m-%d")`,
`None` as `""`, anything else via `str`. -/
def excelCellValue : ExcelCell → String
  | .empty => ""
  | .date d => strftimeYMD d
  | .str s => s

/-- Header rendering `str(cell) if cell is not None else ""` (a `datetime`
prints as `YYYY-MM-DD HH:MM:SS`; the model carries no sub-second part). -/
def excelHeaderValue : ExcelCell → String
  | .empty => ""
  | .date d =>
      strftimeYMD d ++ " " ++ pad2 d.hour ++ ":" ++ pad2 d.minute ++ ":"
        ++ pad2 d.second
  | .str s => s

/-- `dict` insertion: a later assignment to the same key overwrites. -/
def dictInsert (r : Row) (k v : String) : Row :=
  if r.any (fun kv => kv.1 = k) then
    r.map (fun kv => if kv.1 = k then (k, v) else kv)
  else r ++ [(k, v)]

/-- Build the `row_dict` for one excel row: `row_values[j] if j < len else
None`, rendered per cell kind. -/
def excelRowDict (headers : List String) (cells : List ExcelCell) : Row :=
  (headers.enum).foldl
    (fun r p => dictInsert r p.2 (excelCellValue (cells.getD p.1 .empty))) []

/-- The `parse_excel` loop over data rows, `enumerate(rows[1:], start=2)`. -/
def parse_excel_go (headers : List String) (uid acct cur : String)
    (mkId : Nat → String) (now : DateTime) :
    Nat → List (List ExcelCell) → List Transaction × List String
  | _, [] => ([], [])
  | i, cells :: rest =>
      let acc := parse_excel_go headers uid acct cur mkId now (i + 1) rest
      let rd := excelRowDict headers cells
      if rd.all (fun kv => pyStrip kv.2 = "") then acc
      else
        match row_to_transaction rd headers uid acct cur (mkId i) now with
        | .ok t => (t :: acc.1, acc.2)
        | .error e => (acc.1, ("Ligne " ++ toString i ++ ": " ++ e) :: acc.2)

/-- `parse_excel` on the extracted worksheet rows (the `openpyxl` workbook
reading is the library boundary). -/
def parse_excel_rows (rows : List (List ExcelCell)) (uid acct cur : String)
    (mkId : Nat → String) (now : DateTime) : List Transaction × List String :=
  match rows with
  | [] => ([], ["Le fichier Excel est vide ou ne contient qu" ++ sq ++ "un en-tête"])
  | [_] => ([], ["Le fichier Excel est vide ou ne contient qu" ++ sq ++ "un en-tête"])
  | header :: dataRows =>
      parse_excel_go (header.map excelHeaderValue) uid acct cur mkId now 2 dataRows

/-! ## The Wise-style narrative PDF regexes (statement_parser.py)

`_AMOUNT_BALANCE_RE = (-?\d[\d\s]*[.,]\d{2})\s+(-?\d[\d\s]*[.,]\d{2})\s*$`
is implemented as a backtracking matcher with Python preference order
(leftmost starting position; greedy star, longer alternatives first). -/

def isDigitOrSpace (c : Char) : Bool :=
  c.isDigit || isPySpace c

/-- Match `[.,]\d{2}` at the head, then hand the remainder to `cont`;
returns the consumed characters. -/
def sepTail (cs : List Char) (cont : List Char → Option Unit) : Option (List Char) :=
  match cs with
  | s :: a :: b :: rest =>
      if (s = '.' || s = ',') && a.isDigit && b.isDigit then
        (cont rest).map (fun _ => [s, a, b])
      else none
  | _ => none

/-- Greedy `[\d\s]*` followed by `[.,]\d{2}` and `cont`: try the longer
star consumption first, falling back to stopping here. -/
def starMatch (cs : List Char) (cont : List Char → Option Unit) : Option (List Char) :=
  match cs with
  | c :: rest =>
      if isDigitOrSpace c then
        match starMatch rest cont with
        | some g => some (c :: g)
        | none => sepTail cs cont
      else sepTail cs cont
  | [] => sepTail [] cont

/-- `\d[\d\s]*[.,]\d{2}` then `cont`. -/
def numBody (cs : List Char) (cont : List Char → Option Unit) : Option (List Char) :=
  match cs with
  | c :: rest => if c.isDigit then (starMatch rest cont).map (fun g => c :: g) else none
  | [] => none

/-- `-?\d[\d\s]*[.,]\d{2}` then `cont` (taking the optional sign is always
preferred and forced: without it the next char must be a digit). -/
def numCore (cs : List Char) (cont : List Char → Option Unit) : Option (List Char) :=
  match cs with
  | '-' :: rest => (numBody rest cont).map (fun g => '-' :: g)
  | _ => numBody cs cont

/-- Attempt the whole `_AMOUNT_BALANCE_RE` pattern anchored at this position;
returns group 1 (the signed amount).  After group 1: `\s+` (necessarily the
maximal run, since group 2 cannot start with a space), group 2, and an
all-space tail for `\s*$`. -/
def matchFull (cs : List Char) : Option (List Char) :=
  numCore cs (fun rest =>
    let sp := rest.takeWhile isPySpace
    let after := rest.dropWhile isPySpace
    if sp.isEmpty then none
    else
      (numCore after (fun tail =>
        if tail.all isPySpace then some () else none)).map (fun _ => ()))

/-- `re.search` for `_AMOUNT_BALANCE_RE`: scan starting positions left to
right; returns `(match.start(), group 1)`. -/
def searchAB : List Char → Option (Nat × List Char)
  | [] => none
  | cs@(_ :: rest) =>
      match matchFull cs with
      | some g => some (0, g)
      | none => (searchAB rest).map (fun pr => (pr.1 + 1, pr.2))

/-! ## French dates (`_FR_DATE_RE`, `_parse_french_date`) -/

/-- `_FRENCH_MONTHS`, in the same order as the Python dict / regex
alternation (no name is a prefix of another, so at most one alternative can
match at a given position). -/
def frMonths : List (String × Nat) :=
  [("janvier", 1), ("février", 2), ("fevrier", 2), ("mars", 3),
   ("avril", 4), ("mai", 5), ("juin", 6), ("juillet", 7),
   ("août", 8), ("aout", 8), ("septembre", 9), ("octobre", 10),
   ("novembre", 11), ("décembre", 12), ("decembre", 12)]

/-- Case folding for `re.IGNORECASE` over the alphabet of the month names. -/
def frLower (c : Char) : Char :=
  if c = 'É' then 'é' else if c = 'Û' then 'û' else c.toLower

/-- Match one month name (case-insensitively) at the head; returns the month
number and the remainder. -/
def matchMonth (cs : List Char) : Option (Nat × List Char) :=
  let low := cs.map frLower
  (frMonths.find? (fun nm => nm.1.toList.isPrefixOf low)).map
    (fun nm => (nm.2, cs.drop nm.1.length))

/-- After the day digits: `\s+ month \s+ \d{4}`, then the `datetime`
construction (whose `ValueError` yields `none`). -/
def afterDay (day : Nat) (cs : List Char) : Option DateTime :=
  let sp := cs.takeWhile isPySpace
  let cs1 := cs.dropWhile isPySpace
  if sp.isEmpty then none
  else
    match matchMonth cs1 with
    | none => none
    | some (m, cs2) =>
        let sp2 := cs2.takeWhile isPySpace
        let cs3 := cs2.dropWhile isPySpace
        if sp2.isEmpty then none
        else
          match cs3 with
          | y1 :: y2 :: y3 :: y4 :: _ =>
              if y1.isDigit && y2.isDigit && y3.isDigit && y4.isDigit then
                mkDatetime (digitsVal [y1, y2, y3, y4]) m day
              else none
          | _ => none

/-- Digit value of a digit character. -/
def digitVal (c : Char) : Nat := c.toNat - '0'.toNat

/-- `_FR_DATE_RE` matched against the start of the stripped line
(`\d{1,2}` greedy: two digits preferred, backtracking to one). -/
def frMatch (cs : List Char) : Option DateTime :=
  match cs with
  | d1 :: rest1 =>
      if d1.isDigit then
        match rest1 with
        | d2 :: rest2 =>
            if d2.isDigit then
              afterDay (10 * digitVal d1 + digitVal d2) rest2 <|>
                afterDay (digitVal d1) rest1
            else afterDay (digitVal d1) rest1
        | [] => afterDay (digitVal d1) []
      else none
  | [] => none

/-- `_parse_french_date`. -/
def parse_french_date (line : String) : Option DateTime :=
  frMatch (listStrip line.toList)

/-! ## `_parse_wise_text` (statement_parser.py) -/

/-- The date lookahead: first of the next lines (already limited to three by
the caller) whose stripped form parses as a French date. -/
def firstFrDate : List String → Option DateTime
  | [] => none
  | l :: rest =>
      match parse_french_date (pyStrip l) with
      | some d => some d
      | none => firstFrDate rest

/-- The `_parse_wise_text` line loop.  `i` is the line index (used only to
index the uuid supply); the lookahead window is the next three lines. -/
def wiseGo (uid acct cur : String) (mkId : Nat → String) :
    Nat → List String → List Transaction × List String
  | _, [] => ([], [])
  | i, l :: rest =>
      let acc := wiseGo uid acct cur mkId (i + 1) rest
      let line := pyStrip l
      match searchAB line.toList with
      | none => acc
      | some (p, g1) =>
          let description := pyStrip (String.mk (line.toList.take p))
          match firstFrDate (rest.take 3) with
          | none =>
              (acc.1,
               ("Date introuvable pour: " ++ String.mk (description.toList.take 50)
                 ++ "...") :: acc.2)
          | some d =>
              match parse_amount (String.mk g1) with
              | .ok a =>
                  ({ id := mkId i, user_id := uid, account_id := acct, amount := a,
                     currency := cur, date := d,
                     description := if description = "" then "Transaction" else description,
                     is_manual := false, status := .completed } :: acc.1, acc.2)
              | .error e => (acc.1, ("Erreur parsing: " ++ e) :: acc.2)

/-- `_parse_wise_text`. -/
def parse_wise_text (text : String) (uid acct cur : String)
    (mkId : Nat → String) : List Transaction × List String :=
  wiseGo uid acct cur mkId 0 (pySplit '\n' text)

/-! ## `parse_pdf` (statement_parser.py) -/

/-- One page as extracted by `pdfplumber`: its tables (rows of optional cell
strings) and its `extract_text()` result (`none` when extraction fails). -/
structure PdfPage where
  tables : List (List (List (Option String)))
  text : Option String
deriving Repr

/-- `str(cell).strip() if cell else ""` (for both header and data cells). -/
def cellClean : Option String → String
  | none => ""
  | some s => if s = "" then "" else pyStrip s

/-- Build the `row_dict` for one table row. -/
def pdfRowDict (headers : List String) (cells : List (Option String)) : Row :=
  (headers.enum).foldl
    (fun r p => dictInsert r p.2 (cellClean (cells.getD p.1 none))) []

/-- Uuid supplies for the two PDF modes. -/
structure PdfIds where
  tableId : Nat → Nat → Nat → String
  textId : Nat → String

/-- The row loop of one extracted table,
`enumerate(table[1:], start=2)`. -/
def parse_pdf_table_go (pageNum tableIdx : Nat) (headers : List String)
    (uid acct cur : String) (ids : PdfIds) (now : DateTime) :
    Nat → List (List (Option String)) → List Transaction × List String
  | _, [] => ([], [])
  | r, cells :: rest =>
      let acc := parse_pdf_table_go pageNum tableIdx headers uid acct cur ids now
        (r + 1) rest
      let rd := pdfRowDict headers cells
      if rd.all (fun kv => kv.2 = "") then acc
      else
        match row_to_transaction rd headers uid acct cur
            (ids.tableId pageNum tableIdx r) now with
        | .ok t => (t :: acc.1, acc.2)
        | .error e =>
            (acc.1,
             ("Page " ++ toString pageNum ++ ", tableau " ++ toString (tableIdx + 1)
               ++ ", ligne " ++ toString r ++ ": " ++ e) :: acc.2)

/-- One table: skipped entirely when it has fewer than two rows. -/
def parse_pdf_table (pageNum tableIdx : Nat) (table : List (List (Option String)))
    (uid acct cur : String) (ids : PdfIds) (now : DateTime) :
    List Transaction × List String :=
  match table with
  | [] => ([], [])
  | [_] => ([], [])
  | header :: rows =>
      parse_pdf_table_go pageNum tableIdx (header.map cellClean) uid acct cur ids now
        2 rows

/-- All tables of one page, `enumerate(tables)` from 0. -/
def parse_pdf_page_tables (pageNum : Nat) (uid acct cur : String) (ids : PdfIds)
    (now : DateTime) : Nat → List (List (List (Option String))) →
    List Transaction × List String
  | _, [] => ([], [])
  | tIdx, tbl :: rest =>
      let here := parse_pdf_table pageNum tIdx tbl uid acct cur ids now
      let acc := parse_pdf_page_tables pageNum uid acct cur ids now (tIdx + 1) rest
      (here.1 ++ acc.1, here.2 ++ acc.2)

/-- The table-extraction pass over all pages, `enumerate(pdf.pages, start=1)`. -/
def parse_pdf_table_pass (uid acct cur : String) (ids : PdfIds) (now : DateTime) :
    Nat → List PdfPage → List Transaction × List String
  | _, [] => ([], [])
  | pageNum, p :: rest =>
      let here := parse_pdf_page_tables pageNum uid acct cur ids now 0 p.tables
      let acc := parse_pdf_table_pass uid acct cur ids now (pageNum + 1) rest
      (here.1 ++ acc.1, here.2 ++ acc.2)

/-- Concatenation of the pages' extracted text (`page_text + "\n"` for every
page whose text is non-empty). -/
def pdfAllText (pages : List PdfPage) : String :=
  pages.foldr
    (fun p acc =>
      match p.text with
      | some t => if t ≠ "" then t ++ "\n" ++ acc else acc
      | none => acc) ""

/-- `parse_pdf` on the opened document: table pass first; when it produced no
transactions, the accumulated errors are discarded and the Wise-style text
parser runs on the concatenated page text; a final empty result gains the
"nothing found" error. -/
def parse_pdf (pages : List PdfPage) (uid acct cur : String) (ids : PdfIds)
    (now : DateTime) : List Transaction × List String :=
  let tp := parse_pdf_table_pass uid acct cur ids now 1 pages
  let res :=
    if tp.1 = [] then
      let all_text := pdfAllText pages
      if pyStrip all_text ≠ "" then
        parse_wise_text all_text uid acct cur ids.textId
      else ([], [])
    else tp
  if res.1 = [] && res.2 = [] then
    ([], ["Aucune transaction trouvee dans le PDF"])
  else res

/-! ## `parse_statement` dispatch (statement_parser.py)

`parse_statement` looks the uppercased format tag up in the `PARSERS`
registry and hands the same bytes to the chosen parser.  In the model the
per-format library lexing (csv/openpyxl/json/pdfplumber) is the boundary, so
the decoded content of the file is carried per format. -/

inductive FileContent
  | csv (headers : List String) (rows : List Row)
  | excel (rows : List (List ExcelCell))
  | json (items : List JsonItem)
  | pdf (pages : List PdfPage)

/-- The ambient effects of one parser run: the uuid supplies and the clock. -/
structure ParseEnv where
  rowId : Nat → String
  pdfIds : PdfIds
  now : DateTime

/-- `parse_statement` after dispatch (an unrecognised tag never reaches a
parser; it returns the "Format non supporte" error instead). -/
def parse_statement (content : FileContent) (uid acct cur : String)
    (env : ParseEnv) : List Transaction × List String :=
  match content with
  | .csv headers rows => parse_csv_rows headers rows uid acct cur env.rowId env.now
  | .excel rows => parse_excel_rows rows uid acct cur env.rowId env.now
  | .json items => parse_json_items items uid acct cur env.rowId env.now
  | .pdf pages => parse_pdf pages uid acct cur env.pdfIds env.now

/-! ## Budgets and threshold evaluation (entities.py, budget_use_cases.py) -/

/-- The `Budget` entity (fields the threshold logic reads). -/
structure Budget where
  id : String
  user_id : String
  category_id : String
  amount : Rat
  warning_threshold : Rat := (80 : Rat) / 100
  critical_threshold : Rat := 1
  is_active : Bool := true
deriving DecidableEq, Repr

/-- `Budget.check_threshold`: a zero budget amount short-circuits to `None`;
otherwise the spend ratio is classified against the critical threshold first,
then the warning threshold. -/
def Budget.check_threshold (b : Budget) (spent : Rat) : Option String :=
  if b.amount = 0 then none
  else
    let percentage := spent / b.amount
    if percentage ≥ b.critical_threshold then some "critical"
    else if percentage ≥ b.warning_threshold then some "warning"
    else none

/-- `Budget.get_percentage_spent`. -/
def Budget.get_percentage_spent (b : Budget) (spent : Rat) : Rat :=
  if b.amount = 0 then 0 else spent / b.amount * 100

structure BudgetEvent where
  id : String
  budget_id : String
  user_id : String
  event_type : String
  threshold_percentage : Rat
  current_spent : Rat
  budget_amount : Rat
deriving DecidableEq, Repr

inductive NotificationType
  | budget_warning
  | budget_exceeded
  | anomaly_detected
  | goal_milestone
  | insight_ready
deriving DecidableEq, Repr

/-- The `data` dict attached to a budget notification. -/
structure NotifData where
  budget_id : String
  category_id : String
  spent : Rat
  budget_amount : Rat
  percentage : Rat
deriving DecidableEq, Repr

/-- The `Notification` entity; `sent` models the presence of `sent_at`
(set by `mark_as_sent`). -/
structure Notification where
  id : String
  user_id : String
  type : NotificationType
  title : String
  body : String
  data : Option NotifData := none
  is_read : Bool := false
  sent : Bool := false
deriving DecidableEq, Repr

structure NotificationPreferences where
  id : String
  user_id : String
  budget_warnings_enabled : Bool := true
  budget_exceeded_enabled : Bool := true
  push_token : Option String := none
deriving DecidableEq, Repr

/-- `str.upper` (ASCII). -/
def pyUpper (s : String) : String := s.map Char.toUpper

/-- Rendering of the notification body (the numeric f-string formatting is
not needed by any claim; `toString` on rationals stands in for it). -/
def notifBody (percentage spent amount : Rat) : String :=
  "Vous avez atteint " ++ toString (percentage * 100) ++ "% de votre budget ("
    ++ toString spent ++ "€ / " ++ toString amount ++ "€)"

/-- A consumption aggregate `{spent, percentage}` as returned by
`BudgetRepository.get_consumption` (percentage expressed in [0,100]). -/
structure Consumption where
  spent : Rat
  percentage : Rat
deriving DecidableEq, Repr

/-- Outcome of one push attempt as observed by the caller: a returned
boolean, or an exception propagating out of the channel. -/
inductive PushOutcome
  | ok (delivered : Bool)
  | raises (msg : String)
deriving DecidableEq, Repr

/-- The body of the per-budget loop of
`EvaluateBudgetThresholdsUseCase.execute`: returns the `BudgetEvent`s
appended and the `Notification` rows created (a successful push re-creates
the notification marked as sent).  `push` is the outcome the push channel
would produce if called. -/
def evaluate_budget_step (user_id category_id : String)
    (prefs : NotificationPreferences) (hasPushService : Bool)
    (b : Budget) (cons : Consumption) (eventId notifId : String)
    (push : PushOutcome) : List BudgetEvent × List Notification :=
  let spent := cons.spent
  let percentage := cons.percentage / 100
  match b.check_threshold spent with
  | none => ([], [])
  | some threshold_type =>
      let event : BudgetEvent :=
        { id := eventId, budget_id := b.id, user_id := user_id,
          event_type := pyUpper threshold_type,
          threshold_percentage := percentage * 100,
          current_spent := spent, budget_amount := b.amount }
      let notification_enabled :=
        if threshold_type = "warning" then prefs.budget_warnings_enabled
        else prefs.budget_exceeded_enabled
      if notification_enabled then
        let category_name := "Budget"
        let notification : Notification :=
          { id := notifId, user_id := user_id,
            type := if threshold_type = "warning" then .budget_warning
                    else .budget_exceeded,
            title := if threshold_type = "warning" then
                       "Budget " ++ category_name ++ " : Attention"
                     else "Budget " ++ category_name ++ " dépassé",
            body := notifBody percentage spent b.amount,
            data := some { budget_id := b.id, category_id := category_id,
                           spent := spent, budget_amount := b.amount,
                           percentage := percentage * 100 } }
        if hasPushService && (prefs.push_token.getD "") ≠ "" then
          match push with
          | .ok _ => ([event], [notification, { notification with sent := true }])
          | .raises _ => ([event], [notification])
        else ([event], [notification])
      else ([event], [])

/-- `EvaluateBudgetThresholdsUseCase.execute`: missing preferences return an
empty event list; otherwise the budgets (already filtered by the repository
to the user, category and active flag) are evaluated in order.  `ids` yields
the fresh uuids per budget index, `push` the push-channel outcome per index. -/
def evaluate_thresholds_go (user_id category_id : String)
    (p : NotificationPreferences) (hasPushService : Bool)
    (ids : Nat → String × String) (push : Nat → PushOutcome) :
    Nat → List (Budget × Consumption) → List BudgetEvent × List Notification
  | _, [] => ([], [])
  | k, (b, cons) :: rest =>
      let here := evaluate_budget_step user_id category_id p hasPushService
        b cons (ids k).1 (ids k).2 (push k)
      let acc := evaluate_thresholds_go user_id category_id p hasPushService ids push
        (k + 1) rest
      (here.1 ++ acc.1, here.2 ++ acc.2)

def evaluate_thresholds (user_id category_id : String)
    (prefs : Option NotificationPreferences) (hasPushService : Bool)
    (items : List (Budget × Consumption)) (ids : Nat → String × String)
    (push : Nat → PushOutcome) : List BudgetEvent × List Notification :=
  match prefs with
  | none => ([], [])
  | some p => evaluate_thresholds_go user_id category_id p hasPushService ids push 0 items

/-! ## Expo push service (push_notification_impl.py) -/

/-- What the Expo HTTP endpoint does when actually called: responds with a
status code and the `data.status` field of its JSON body, or raises. -/
inductive HttpResult
  | response (status : Nat) (dataStatus : Option String)
  | raises (msg : String)
deriving DecidableEq, Repr

/-- `ExpoPushNotificationService.send_notification`: a falsy or malformed
token returns `False` before the network request; any exception from the
request is swallowed into `False`; a 200 response returns whether
`data.status == "ok"`. -/
def send_notification (push_token : String) (net : HttpResult) : Bool :=
  if push_token = "" || !push_token.startsWith "ExponentPushToken[" then false
  else
    match net with
    | .raises _ => false
    | .response status ds =>
        if status = 200 then ds = some "ok" else false

/-! ## Celery budget task (budget_tasks.py) -/

inductive TaskAlert
  | exceeded
  | warning
deriving DecidableEq, Repr

/-- The body of the per-budget loop in `_evaluate_budgets`
(budget_tasks.py): a missing consumption row or a non-positive budget amount
is skipped before any division; otherwise the spend ratio picks the alert
level, if any.  (The Python floats are modelled as exact rationals; the
claims about this function only exercise the `amount <= 0` guard.) -/
def task_evaluate_budget (b : Budget) (cons : Option Consumption) :
    Option TaskAlert :=
  match cons with
  | none => none
  | some c =>
      if b.amount ≤ 0 then none
      else
        let pct := c.spent / b.amount
        if pct ≥ b.critical_threshold then some .exceeded
        else if pct ≥ b.warning_threshold then some .warning
        else none

/-! ## Import endpoint (routers/transactions.py, ImportStatementUseCase) -/

structure Account where
  id : String
  user_id : String
  currency : String
  balance : Rat
deriving DecidableEq, Repr

/-- `ImportStatementUseCase.execute` after account verification, without a
categorization service (as constructed by the router): bulk-create returns
the transactions, and the account balance is adjusted by their sum. -/
def import_statement (account : Account) (txns : List Transaction) :
    List Transaction × Account :=
  let imported := txns
  let total_amount := (imported.map Transaction.amount).foldl (· + ·) 0
  (imported, { account with balance := account.balance + total_amount })

inductive ImportOutcome
  | httpError (status : Nat) (detail : String)
  | success (transactions_imported : Nat) (errors : List String)
deriving DecidableEq, Repr

/-- The tail of the `import_transactions` endpoint, from the parse result
on: the HTTP outcome, the transactions handed to the persistence layer
(empty when the bulk insert is never invoked), and the resulting account. -/
def import_after_parse (account : Account)
    (parsed : List Transaction × List String) :
    ImportOutcome × List Transaction × Account :=
  let parsed_transactions := parsed.1
  let parse_errors := parsed.2
  if parsed_transactions = [] && parse_errors ≠ [] then
    (.httpError 400 (String.intercalate "; " parse_errors), [], account)
  else if parsed_transactions = [] then
    (.success 0 ["Aucune transaction trouvee dans le fichier"], [], account)
  else
    let (imported, account2) := import_statement account parsed_transactions
    (.success imported.length parse_errors, imported, account2)

/-! ## Derived notions used to state the claims -/

/-- A transaction with its generated uuid blanked, for comparing re-runs of
the parser under different id supplies. -/
def stripId (t : Transaction) : Transaction := { t with id := "" }

/-- The contribution of the row at (0-based-in-file) position `p.1` to the
CSV transaction list. -/
def csvRowTxn (headers : List String) (uid acct cur : String)
    (mkId : Nat → String) (now : DateTime) (p : Nat × Row) : Option Transaction :=
  if rowIsEmpty p.2 then none
  else
    match row_to_transaction p.2 headers uid acct cur (mkId p.1) now with
    | .ok t => some t
    | .error _ => none

/-- The contribution of the row at position `p.1` to the CSV error list:
at most one row-indexed error. -/
def csvRowErr (headers : List String) (uid acct cur : String)
    (mkId : Nat → String) (now : DateTime) (p : Nat × Row) : Option String :=
  if rowIsEmpty p.2 then none
  else
    match row_to_transaction p.2 headers uid acct cur (mkId p.1) now with
    | .ok _ => none
    | .error e => some ("Ligne " ++ toString p.1 ++ ": " ++ e)

/-- The contribution of the JSON element at (1-based) position `p.1` to the
transaction list. -/
def jsonItemTxn (uid acct cur : String) (mkId : Nat → String) (now : DateTime)
    (p : Nat × JsonItem) : Option Transaction :=
  match p.2 with
  | .nonObject => none
  | .obj fields =>
      match row_to_transaction fields (fields.map (fun kv => kv.1)) uid acct cur
          (mkId p.1) now with
      | .ok t => some t
      | .error _ => none

/-- The contribution of the JSON element at position `p.1` to the error
list. -/
def jsonItemErr (uid acct cur : String) (mkId : Nat → String) (now : DateTime)
    (p : Nat × JsonItem) : Option String :=
  match p.2 with
  | .nonObject => some ("Element " ++ toString p.1 ++ ": doit etre un objet")
  | .obj fields =>
      match row_to_transaction fields (fields.map (fun kv => kv.1)) uid acct cur
          (mkId p.1) now with
      | .ok _ => none
      | .error e => some ("Element " ++ toString p.1 ++ ": " ++ e)

/-- The contribution of the PDF table row at row number `p.1` to the
transaction list. -/
def pdfRowTxn (pageNum tableIdx : Nat) (headers : List String)
    (uid acct cur : String) (ids : PdfIds) (now : DateTime)
    (p : Nat × List (Option String)) : Option Transaction :=
  let rd := pdfRowDict headers p.2
  if rd.all (fun kv => kv.2 = "") then none
  else
    match row_to_transaction rd headers uid acct cur
        (ids.tableId pageNum tableIdx p.1) now with
    | .ok t => some t
    | .error _ => none

/-- The contribution of the PDF table row at row number `p.1` to the error
list. -/
def pdfRowErr (pageNum tableIdx : Nat) (headers : List String)
    (uid acct cur : String) (ids : PdfIds) (now : DateTime)
    (p : Nat × List (Option String)) : Option String :=
  let rd := pdfRowDict headers p.2
  if rd.all (fun kv => kv.2 = "") then none
  else
    match row_to_transaction rd headers uid acct cur
        (ids.tableId pageNum tableIdx p.1) now with
    | .ok _ => none
    | .error e =>
        some ("Page " ++ toString pageNum ++ ", tableau " ++ toString (tableIdx + 1)
          ++ ", ligne " ++ toString p.1 ++ ": " ++ e)

/-- The contribution of the excel data row at row number `p.1` to the
transaction list. -/
def excelRowTxn (headers : List String) (uid acct cur : String)
    (mkId : Nat → String) (now : DateTime) (p : Nat × List ExcelCell) :
    Option Transaction :=
  let rd := excelRowDict headers p.2
  if rd.all (fun kv => pyStrip kv.2 = "") then none
  else
    match row_to_transaction rd headers uid acct cur (mkId p.1) now with
    | .ok t => some t
    | .error _ => none

/-- The contribution of the excel data row at row number `p.1` to the error
list: at most one row-indexed error. -/
def excelRowErr (headers : List String) (uid acct cur : String)
    (mkId : Nat → String) (now : DateTime) (p : Nat × List ExcelCell) :
    Option String :=
  let rd := excelRowDict headers p.2
  if rd.all (fun kv => pyStrip kv.2 = "") then none
  else
    match row_to_transaction rd headers uid acct cur (mkId p.1) now with
    | .ok _ => none
    | .error e => some ("Ligne " ++ toString p.1 ++ ": " ++ e)

/-- The contribution of the narrative line at index `i` (with lookahead
window `la`) to the text-mode transaction list. -/
def wiseLineTxn (uid acct cur : String) (mkId : Nat → String) (i : Nat)
    (l : String) (la : List String) : Option Transaction :=
  let line := pyStrip l
  match searchAB line.toList with
  | none => none
  | some (p, g1) =>
      let description := pyStrip (String.mk (line.toList.take p))
      match firstFrDate la with
      | none => none
      | some d =>
          match parse_amount (String.mk g1) with
          | .ok a =>
              some { id := mkId i, user_id := uid, account_id := acct, amount := a,
                     currency := cur, date := d,
                     description := if description = "" then "Transaction" else description,
                     is_manual := false, status := .completed }
          | .error _ => none

/-- The contribution of a narrative line (with lookahead window `la`) to the
text-mode error list: at most one error, naming the truncated description or
the amount-parse failure — with no line index. -/
def wiseLineErr (l : String) (la : List String) : Option String :=
  let line := pyStrip l
  match searchAB line.toList with
  | none => none
  | some (p, g1) =>
      let description := pyStrip (String.mk (line.toList.take p))
      match firstFrDate la with
      | none =>
          some ("Date introuvable pour: " ++ String.mk (description.toList.take 50)
            ++ "...")
      | some _ =>
          match parse_amount (String.mk g1) with
          | .ok _ => none
          | .error e => some ("Erreur parsing: " ++ e)

/-! ## Concrete fixtures used by witnesses and counterexamples -/

/-- The spec's example budget: amount 100, warning 0.80, critical 1.00. -/
def budget100 : Budget :=
  { id := "b1", user_id := "u1", category_id := "c1", amount := 100 }

/-- A zero-amount budget. -/
def zeroBudget : Budget :=
  { id := "b0", user_id := "u1", category_id := "c1", amount := 0 }

/-- A fixed processing time standing for `datetime.utcnow()`. -/
def now0 : DateTime := ⟨2025, 1, 1, 12, 0, 0⟩

/-- Headers of a debit/credit-style CSV. -/
def dcHeaders : List String := ["description", "debit", "credit"]

/-- A row carrying both a debit and a credit value. -/
def dcBothRow : Row := [("description", "Achat"), ("debit", "20,00"), ("credit", "50,00")]

/-- A row with a debit value and an empty credit cell. -/
def dcDebitRow : Row := [("description", "Achat"), ("debit", "20,00"), ("credit", "")]

/-- A row with only a credit value. -/
def dcCreditRow : Row := [("description", "Vente"), ("debit", ""), ("credit", "50,00")]

/-- One parser environment (id supply and clock). -/
def envA : ParseEnv :=
  { rowId := fun i => "a-" ++ toString i,
    pdfIds := { tableId := fun p t r => "a-" ++ toString p ++ "-" ++ toString t
                  ++ "-" ++ toString r,
                textId := fun i => "a-" ++ toString i },
    now := now0 }

/-- A second environment with a different id supply but the same clock. -/
def envB : ParseEnv :=
  { rowId := fun i => "b-" ++ toString i,
    pdfIds := { tableId := fun p t r => "b-" ++ toString p ++ "-" ++ toString t
                  ++ "-" ++ toString r,
                textId := fun i => "b-" ++ toString i },
    now := now0 }

/-- A small CSV statement file. -/
def csvContent0 : FileContent :=
  .csv ["description", "amount"] [[("description", "Coffee"), ("amount", "20,00")]]

/-- Whether `parse_pdf` runs the text-based (narrative) mode: the code enters
it exactly when the table pass produced no transactions
(`if not transactions:`). -/
def pdf_text_mode (pages : List PdfPage) (uid acct cur : String) (ids : PdfIds)
    (now : DateTime) : Bool :=
  (parse_pdf_table_pass uid acct cur ids now 1 pages).1.isEmpty

/-- A fixed uuid supply for PDF parsing. -/
def idsX : PdfIds :=
  { tableId := fun p t r => "t-" ++ toString p ++ "-" ++ toString t ++ "-" ++ toString r,
    textId := fun i => "x-" ++ toString i }

/-- A PDF page that has a table (whose single data row fails conversion) and
narrative text holding one Wise-style transaction. -/
def wisePage : PdfPage :=
  { tables := [[[some "X"], [some "Y"]]],
    text := some "Carte achat -16,20 62,76\n12 février 2025" }

/-! ## Claim theorems -/

/-- C1: for every budget (with a non-zero amount, so that the spend-to-budget
ratio exists), `check_threshold` returns `critical` iff the ratio is at least
the critical threshold, `warning` iff it is below critical but at least the
warning threshold, and none otherwise; on the spec's example budget
(amount 100, warning 0.80, critical 1.00) spends 85 / 100 / 79 classify as
warning / critical / none, and in the none case the evaluation loop body
creates no `BudgetEvent` and no `Notification`. -/
theorem c1_threshold_classification (b : Budget) (spent : Rat) (h : b.amount ≠ 0) :
    (b.check_threshold spent = some "critical" ↔
       b.critical_threshold ≤ spent / b.amount)
    ∧ (b.check_threshold spent = some "warning" ↔
       (spent / b.amount < b.critical_threshold ∧ b.warning_threshold ≤ spent / b.amount))
    ∧ (b.check_threshold spent = none ↔
       (spent / b.amount < b.critical_threshold ∧ spent / b.amount < b.warning_threshold))
    ∧ budget100.check_threshold 85 = some "warning"
    ∧ budget100.check_threshold 100 = some "critical"
    ∧ budget100.check_threshold 79 = none
    ∧ (∀ user cat prefs hasPush eid nid push,
        evaluate_budget_step user cat prefs hasPush budget100 ⟨79, 79⟩ eid nid push
          = ([], [])) := by
  have h79 : budget100.check_threshold 79 = none := by
    norm_num [Budget.check_threshold, budget100]
  refine ⟨?_, ?_, ?_,
    by norm_num [Budget.check_threshold, budget100],
    by norm_num [Budget.check_threshold, budget100],
    h79, ?_⟩
  · simp only [Budget.check_threshold, if_neg h, ge_iff_le]
    split_ifs with h1 h2 <;> simp_all [not_le]
  · simp only [Budget.check_threshold, if_neg h, ge_iff_le]
    split_ifs with h1 h2 <;> simp_all [not_le]
  · simp only [Budget.check_threshold, if_neg h, ge_iff_le]
    split_ifs with h1 h2 <;> simp_all [not_le]
  · intro user cat prefs hasPush eid nid push
    simp [evaluate_budget_step, h79]

/-- Witness for C1 at the spec's example budget. -/
theorem c1_threshold_classification_witness :
    budget100.amount ≠ 0 ∧
      (budget100.check_threshold 85 = some "critical" ↔
        budget100.critical_threshold ≤ (85 : Rat) / budget100.amount) :=
  ⟨by norm_num [budget100],
   (c1_threshold_classification budget100 85 (by norm_num [budget100])).1⟩

/-- C10: a budget whose amount is zero never classifies a threshold
(`check_threshold` is guarded and returns none for every spent value), never
yields a `BudgetEvent` or `Notification` in the use-case loop, and is
skipped by the worker task before its division. -/
theorem c10_zero_amount_budget_inert (b : Budget) (h : b.amount = 0) :
    (∀ spent, b.check_threshold spent = none)
    ∧ (∀ user cat prefs hasPush cons eid nid push,
        evaluate_budget_step user cat prefs hasPush b cons eid nid push = ([], []))
    ∧ (∀ cons, task_evaluate_budget b cons = none) := by
  refine ⟨?_, ?_, ?_⟩
  · intro spent
    unfold Budget.check_threshold
    rw [if_pos h]
  · intro user cat prefs hasPush cons eid nid push
    have hz : b.check_threshold cons.spent = none := by
      unfold Budget.check_threshold
      rw [if_pos h]
    simp [evaluate_budget_step, hz]
  · intro cons
    unfold task_evaluate_budget
    cases cons with
    | none => rfl
    | some c =>
        simp [h]

/-- Witness for C10 at a concrete zero-amount budget. -/
theorem c10_zero_amount_budget_inert_witness :
    zeroBudget.amount = 0 ∧ zeroBudget.check_threshold 12345 = none :=
  ⟨rfl, (c10_zero_amount_budget_inert zeroBudget rfl).1 12345⟩

/-- C2: when parsing yields zero transactions and at least one error, the
endpoint fails the import with HTTP 400 carrying the `"; "`-joined errors, hands
nothing to the persistence layer and leaves the account (hence its balance)
unchanged; with zero transactions and zero errors it reports success with
`transactions_imported = 0`, again persisting nothing. -/
theorem c2_import_zero_transactions (account : Account) (errors : List String) :
    (errors ≠ [] →
       import_after_parse account ([], errors)
         = (.httpError 400 (String.intercalate "; " errors), [], account))
    ∧ import_after_parse account ([], [])
        = (.success 0 ["Aucune transaction trouvee dans le fichier"], [], account) := by
  constructor
  · intro h
    simp [import_after_parse, h]
  · simp [import_after_parse]

/-- Witness for C2 at a concrete account and error list. -/
theorem c2_import_zero_transactions_witness :
    (["Ligne 2: Montant manquant"] : List String) ≠ [] ∧
      import_after_parse ⟨"a1", "u1", "EUR", 10⟩ ([], ["Ligne 2: Montant manquant"])
        = (.httpError 400 "Ligne 2: Montant manquant", [], ⟨"a1", "u1", "EUR", 10⟩) := by
  refine ⟨by decide, ?_⟩
  have := (c2_import_zero_transactions ⟨"a1", "u1", "EUR", 10⟩
    ["Ligne 2: Montant manquant"]).1 (by decide)
  simpa using this

/-- The events (and whether/which notification rows are recorded) produced by
one budget evaluation never depend on what the push channel does. -/
theorem evaluate_budget_step_push_irrelevant (user cat : String)
    (prefs : NotificationPreferences) (hasPush : Bool) (b : Budget)
    (cons : Consumption) (eid nid : String) (push₁ push₂ : PushOutcome) :
    (evaluate_budget_step user cat prefs hasPush b cons eid nid push₁).1
      = (evaluate_budget_step user cat prefs hasPush b cons eid nid push₂).1 := by
  cases h : b.check_threshold cons.spent with
  | none => simp [evaluate_budget_step, h]
  | some t =>
      simp only [evaluate_budget_step, h]
      split_ifs <;> cases push₁ <;> cases push₂ <;> rfl

theorem evaluate_thresholds_go_push_irrelevant (user cat : String)
    (p : NotificationPreferences) (hasPush : Bool) (ids : Nat → String × String)
    (push₁ push₂ : Nat → PushOutcome) (k : Nat)
    (items : List (Budget × Consumption)) :
    (evaluate_thresholds_go user cat p hasPush ids push₁ k items).1
      = (evaluate_thresholds_go user cat p hasPush ids push₂ k items).1 := by
  induction items generalizing k with
  | nil => rfl
  | cons bc rest ih =>
      cases bc with
      | mk b cons =>
          simp only [evaluate_thresholds_go]
          rw [evaluate_budget_step_push_irrelevant user cat p hasPush b cons
            (ids k).1 (ids k).2 (push₁ k) (push₂ k), ih]

/-- C8: a push token that is falsy or does not start with
`ExponentPushToken[` short-circuits `send_notification` to `false` for every
possible behaviour of the network (no call is observable); an exception
raised by the HTTP channel is swallowed into `false`; and the budget events
recorded by threshold evaluation are identical whatever each push attempt
does (including raising), so a push failure never fails the evaluation. -/
theorem c8_push_failures_contained :
    (∀ token net, ¬ token.startsWith "ExponentPushToken[" →
       send_notification token net = false)
    ∧ (∀ token msg, send_notification token (.raises msg) = false)
    ∧ (∀ user cat prefs hasPush items ids push₁ push₂,
       (evaluate_thresholds user cat prefs hasPush items ids push₁).1
         = (evaluate_thresholds user cat prefs hasPush items ids push₂).1) := by
  refine ⟨?_, ?_, ?_⟩
  · intro token net h
    unfold send_notification
    have : token.startsWith "ExponentPushToken[" = false := by
      simpa using h
    simp [this]
  · intro token msg
    unfold send_notification
    split_ifs <;> rfl
  · intro user cat prefs hasPush items ids push₁ push₂
    cases prefs with
    | none => rfl
    | some p =>
        exact evaluate_thresholds_go_push_irrelevant user cat p hasPush ids
          push₁ push₂ 0 items

/-- Witness for C8 at a concrete malformed token and network behaviour. -/
theorem c8_push_failures_contained_witness :
    ¬ ("not-a-token".startsWith "ExponentPushToken[")
      ∧ send_notification "not-a-token" (.response 200 (some "ok")) = false :=
  ⟨by decide,
   c8_push_failures_contained.1 "not-a-token" (.response 200 (some "ok")) (by decide)⟩

/-! ## Character-class and string lemmas for the amount pipeline -/

theorem isDigit_ne {c x : Char} (h : c.isDigit = true) (hx : x.isDigit = false) :
    c ≠ x := by
  intro he
  rw [he, hx] at h
  exact Bool.false_ne_true h

theorem isPySpace_of_isDigit {c : Char} (h : c.isDigit = true) :
    isPySpace c = false := by
  have h1 : c ≠ ' ' := isDigit_ne h (by decide)
  have h2 : c ≠ '\t' := isDigit_ne h (by decide)
  have h3 : c ≠ '\n' := isDigit_ne h (by decide)
  have h4 : c ≠ '\r' := isDigit_ne h (by decide)
  have h5 : c ≠ '\u000b' := isDigit_ne h (by decide)
  have h6 : c ≠ '\u000c' := isDigit_ne h (by decide)
  have h7 : c ≠ '\u00A0' := isDigit_ne h (by decide)
  simp [isPySpace, h1, h2, h3, h4, h5, h6, h7]

theorem dropWhile_all_false {p : Char → Bool} {cs : List Char}
    (h : ∀ c ∈ cs, p c = false) : cs.dropWhile p = cs := by
  cases cs with
  | nil => rfl
  | cons x xs =>
      rw [List.dropWhile_cons, if_neg]
      simp [h x (List.mem_cons_self x xs)]

theorem listStrip_eq_self {cs : List Char} (h : ∀ c ∈ cs, isPySpace c = false) :
    listStrip cs = cs := by
  unfold listStrip
  rw [dropWhile_all_false h,
    dropWhile_all_false (fun c hc => h c (List.mem_reverse.mp hc)),
    List.reverse_reverse]

theorem takeWhile_append_cons {p : Char → Bool} {xs : List Char} {y : Char}
    {ys : List Char} (hx : ∀ c ∈ xs, p c = true) (hy : p y = false) :
    ((xs ++ y :: ys).takeWhile p) = xs := by
  induction xs with
  | nil => simp [List.takeWhile_cons, hy]
  | cons a as ih =>
      have ha : p a = true := hx a (by simp)
      simp only [List.cons_append, List.takeWhile_cons, ha, if_true]
      rw [ih (fun c hc => hx c (by simp [hc]))]

theorem dropWhile_append_cons {p : Char → Bool} {xs : List Char} {y : Char}
    {ys : List Char} (hx : ∀ c ∈ xs, p c = true) (hy : p y = false) :
    ((xs ++ y :: ys).dropWhile p) = y :: ys := by
  induction xs with
  | nil => simp [List.dropWhile_cons, hy]
  | cons a as ih =>
      have ha : p a = true := hx a (by simp)
      simp only [List.cons_append, List.dropWhile_cons, ha, if_true]
      exact ih (fun c hc => hx c (by simp [hc]))

theorem lastIdxAux_not_mem {c : Char} :
    ∀ {q : List Char} {i acc : Nat}, c ∉ q → lastIdxAux c q i acc = acc := by
  intro q
  induction q with
  | nil => intro i acc _; rfl
  | cons x xs ih =>
      intro i acc h
      have hx : ¬ (x = c) := fun he => h (by simp [he])
      unfold lastIdxAux
      rw [if_neg hx]
      exact ih (fun hc => h (List.mem_cons_of_mem x hc))

theorem lastIdxAux_last {c : Char} {q : List Char} (hq : c ∉ q) :
    ∀ (p : List Char) (i acc : Nat), lastIdxAux c (p ++ c :: q) i acc = i + p.length := by
  intro p
  induction p with
  | nil =>
      intro i acc
      show lastIdxAux c (c :: q) i acc = i + 0
      unfold lastIdxAux
      rw [if_pos rfl, lastIdxAux_not_mem hq]
      omega
  | cons x xs ih =>
      intro i acc
      show lastIdxAux c (x :: (xs ++ c :: q)) i acc = _
      unfold lastIdxAux
      rw [ih (i + 1), List.length_cons]
      omega

theorem lastIdxOf_last {c : Char} {p q : List Char} (hq : c ∉ q) :
    lastIdxOf c (p ++ c :: q) = p.length := by
  unfold lastIdxOf
  rw [lastIdxAux_last hq p 0 0]
  omega

theorem containsChar_iff {c : Char} {cs : List Char} :
    containsChar c cs = true ↔ c ∈ cs := by
  unfold containsChar
  rw [List.any_eq_true]
  constructor
  · rintro ⟨x, hx, he⟩
    have hxc : x = c := by simpa using he
    exact hxc ▸ hx
  · intro h
    exact ⟨c, h, by simp⟩

theorem map_keep {α : Type} {f : α → α} {xs : List α}
    (h : ∀ c ∈ xs, f c = c) : xs.map f = xs := by
  induction xs with
  | nil => rfl
  | cons a as ih =>
      simp only [List.map_cons, h a (by simp)]
      rw [ih (fun c hc => h c (by simp [hc]))]

theorem removeChar_keep {s : Char} {xs : List Char} (h : ∀ x ∈ xs, x ≠ s) :
    removeChar s xs = xs :=
  List.filter_eq_self.mpr (by intro x hx; simpa using h x hx)

theorem replaceChar_keep {u v : Char} {xs : List Char} (h : ∀ x ∈ xs, x ≠ u) :
    replaceChar u v xs = xs :=
  map_keep (by intro x hx; simp [h x hx])

/-- Every character of `a ++ s₁ :: (b ++ s₂ :: c)` (all-digit `a b c`) is a
digit or one of the two separators. -/
theorem mem_mixed_cases {a b c : List Char} {x : Char}
    (ha : ∀ y ∈ a, y.isDigit = true) (hb : ∀ y ∈ b, y.isDigit = true)
    (hc : ∀ y ∈ c, y.isDigit = true) (s₁ s₂ : Char)
    (hx : x ∈ a ++ s₁ :: (b ++ s₂ :: c)) :
    x.isDigit = true ∨ x = s₁ ∨ x = s₂ := by
  rcases List.mem_append.mp hx with h | h
  · exact Or.inl (ha x h)
  · rcases List.mem_cons.mp h with h | h
    · exact Or.inr (Or.inl h)
    · rcases List.mem_append.mp h with h | h
      · exact Or.inl (hb x h)
      · rcases List.mem_cons.mp h with h | h
        · exact Or.inr (Or.inr h)
        · exact Or.inl (hc x h)

/-- `cleanAmount` on a string of the form `‹digits›.‹digits›,‹digits›`:
the comma (the later separator) becomes the decimal point and the dot is
removed as a grouping separator. -/
theorem cleanAmount_both_comma_last {a b c : List Char}
    (ha : a.all Char.isDigit = true) (hb : b.all Char.isDigit = true)
    (hc : c.all Char.isDigit = true) :
    cleanAmount (String.mk (a ++ '.' :: (b ++ ',' :: c))) = a ++ (b ++ '.' :: c) := by
  have ha2 := List.all_eq_true.mp ha
  have hb2 := List.all_eq_true.mp hb
  have hc2 := List.all_eq_true.mp hc
  have hnospace : ∀ x ∈ a ++ '.' :: (b ++ ',' :: c), isPySpace x = false := by
    intro x hx
    rcases mem_mixed_cases ha2 hb2 hc2 '.' ',' hx with h | h | h
    · exact isPySpace_of_isDigit h
    · rw [h]; decide
    · rw [h]; decide
  have hdotQ : '.' ∉ b ++ ',' :: c := by
    intro hmem
    rcases List.mem_append.mp hmem with h | h
    · exact isDigit_ne (hb2 _ h) (by decide) rfl
    · rcases List.mem_cons.mp h with h | h
      · exact absurd h (by decide)
      · exact isDigit_ne (hc2 _ h) (by decide) rfl
  have hcommaC : ',' ∉ c := fun h => isDigit_ne (hc2 _ h) (by decide) rfl
  have hmemc : (',' : Char) ∈ a ++ '.' :: (b ++ ',' :: c) := by simp
  have hmemd : ('.' : Char) ∈ a ++ '.' :: (b ++ ',' :: c) := by simp
  have hidx1 : lastIdxOf '.' (a ++ '.' :: (b ++ ',' :: c)) = a.length :=
    lastIdxOf_last hdotQ
  have hidx2 : lastIdxOf ',' (a ++ '.' :: (b ++ ',' :: c))
      = a.length + b.length + 1 := by
    rw [show a ++ '.' :: (b ++ ',' :: c) = (a ++ '.' :: b) ++ ',' :: c by simp,
      lastIdxOf_last hcommaC]
    simp only [List.length_append, List.length_cons]
    omega
  simp only [cleanAmount]
  rw [show (String.mk (a ++ '.' :: (b ++ ',' :: c))).toList
      = a ++ '.' :: (b ++ ',' :: c) from rfl,
    listStrip_eq_self hnospace,
    containsChar_iff.mpr hmemc, containsChar_iff.mpr hmemd]
  simp only [Bool.and_self, if_true]
  rw [if_pos (by rw [hidx1, hidx2]; omega)]
  have hfiltA : List.filter (fun x => !decide (x = '.')) a = a :=
    List.filter_eq_self.mpr (by
      intro x hx
      simpa using isDigit_ne (ha2 _ hx) (by decide))
  have hfiltB : List.filter (fun x => !decide (x = '.')) b = b :=
    List.filter_eq_self.mpr (by
      intro x hx
      simpa using isDigit_ne (hb2 _ hx) (by decide))
  have hfiltC : List.filter (fun x => !decide (x = '.')) c = c :=
    List.filter_eq_self.mpr (by
      intro x hx
      simpa using isDigit_ne (hc2 _ hx) (by decide))
  have hrm : removeChar '.' (a ++ '.' :: (b ++ ',' :: c)) = a ++ (b ++ ',' :: c) := by
    unfold removeChar
    rw [List.filter_append, List.filter_cons, List.filter_append, List.filter_cons]
    simp [hfiltA, hfiltB, hfiltC]
  rw [hrm]
  have hrep : replaceChar ',' '.' (a ++ (b ++ ',' :: c)) = a ++ (b ++ '.' :: c) := by
    unfold replaceChar
    rw [List.map_append, List.map_append, List.map_cons]
    rw [map_keep (by
        intro x hx
        simp [isDigit_ne (ha2 _ hx) (by decide : (',' : Char).isDigit = false)]),
      map_keep (by
        intro x hx
        simp [isDigit_ne (hb2 _ hx) (by decide : (',' : Char).isDigit = false)]),
      map_keep (by
        intro x hx
        simp [isDigit_ne (hc2 _ hx) (by decide : (',' : Char).isDigit = false)])]
    simp
  rw [hrep]
  have hkeep : ∀ s : Char, s.isDigit = false → s ≠ '.' →
      removeChar s (a ++ (b ++ '.' :: c)) = a ++ (b ++ '.' :: c) := by
    intro s hs hs2
    refine removeChar_keep ?_
    intro x hx
    rcases List.mem_append.mp hx with h | h
    · exact isDigit_ne (ha2 _ h) hs
    · rcases List.mem_append.mp h with h | h
      · exact isDigit_ne (hb2 _ h) hs
      · rcases List.mem_cons.mp h with h | h
        · rw [h]; exact fun he => hs2 he.symm
        · exact isDigit_ne (hc2 _ h) hs
  rw [hkeep ' ' (by decide) (by decide), hkeep '\u00A0' (by decide) (by decide),
    hkeep '€' (by decide) (by decide), hkeep '$' (by decide) (by decide),
    hkeep '£' (by decide) (by decide)]

theorem containsChar_eq_false {c : Char} {cs : List Char} (h : c ∉ cs) :
    containsChar c cs = false := by
  cases hx : containsChar c cs
  · rfl
  · exact absurd (containsChar_iff.mp hx) h

/-- `cleanAmount` on a string of the form `‹digits›,‹digits›.‹digits›`:
the dot (the later separator) stays the decimal point and the comma is
removed as a grouping separator. -/
theorem cleanAmount_both_dot_last {a b c : List Char}
    (ha : a.all Char.isDigit = true) (hb : b.all Char.isDigit = true)
    (hc : c.all Char.isDigit = true) :
    cleanAmount (String.mk (a ++ ',' :: (b ++ '.' :: c))) = a ++ (b ++ '.' :: c) := by
  have ha2 := List.all_eq_true.mp ha
  have hb2 := List.all_eq_true.mp hb
  have hc2 := List.all_eq_true.mp hc
  have hnospace : ∀ x ∈ a ++ ',' :: (b ++ '.' :: c), isPySpace x = false := by
    intro x hx
    rcases mem_mixed_cases ha2 hb2 hc2 ',' '.' hx with h | h | h
    · exact isPySpace_of_isDigit h
    · rw [h]; decide
    · rw [h]; decide
  have hcommaQ : ',' ∉ b ++ '.' :: c := by
    intro hmem
    rcases List.mem_append.mp hmem with h | h
    · exact isDigit_ne (hb2 _ h) (by decide) rfl
    · rcases List.mem_cons.mp h with h | h
      · exact absurd h (by decide)
      · exact isDigit_ne (hc2 _ h) (by decide) rfl
  have hdotC : '.' ∉ c := fun h => isDigit_ne (hc2 _ h) (by decide) rfl
  have hmemc : (',' : Char) ∈ a ++ ',' :: (b ++ '.' :: c) := by simp
  have hmemd : ('.' : Char) ∈ a ++ ',' :: (b ++ '.' :: c) := by simp
  have hidx1 : lastIdxOf ',' (a ++ ',' :: (b ++ '.' :: c)) = a.length :=
    lastIdxOf_last hcommaQ
  have hidx2 : lastIdxOf '.' (a ++ ',' :: (b ++ '.' :: c))
      = a.length + b.length + 1 := by
    rw [show a ++ ',' :: (b ++ '.' :: c) = (a ++ ',' :: b) ++ '.' :: c by simp,
      lastIdxOf_last hdotC]
    simp only [List.length_append, List.length_cons]
    omega
  simp only [cleanAmount]
  rw [show (String.mk (a ++ ',' :: (b ++ '.' :: c))).toList
      = a ++ ',' :: (b ++ '.' :: c) from rfl,
    listStrip_eq_self hnospace,
    containsChar_iff.mpr hmemc, containsChar_iff.mpr hmemd]
  simp only [Bool.and_self, if_true]
  rw [if_neg (by rw [hidx1, hidx2]; omega)]
  have hrm : removeChar ',' (a ++ ',' :: (b ++ '.' :: c)) = a ++ (b ++ '.' :: c) := by
    unfold removeChar
    rw [List.filter_append, List.filter_cons, List.filter_append, List.filter_cons]
    have hfiltA : List.filter (fun x => !decide (x = ',')) a = a :=
      List.filter_eq_self.mpr (by
        intro x hx
        simpa using isDigit_ne (ha2 _ hx) (by decide))
    have hfiltB : List.filter (fun x => !decide (x = ',')) b = b :=
      List.filter_eq_self.mpr (by
        intro x hx
        simpa using isDigit_ne (hb2 _ hx) (by decide))
    have hfiltC : List.filter (fun x => !decide (x = ',')) c = c :=
      List.filter_eq_self.mpr (by
        intro x hx
        simpa using isDigit_ne (hc2 _ hx) (by decide))
    simp [hfiltA, hfiltB, hfiltC]
  rw [hrm]
  have hkeep : ∀ s : Char, s.isDigit = false → s ≠ '.' →
      removeChar s (a ++ (b ++ '.' :: c)) = a ++ (b ++ '.' :: c) := by
    intro s hs hs2
    refine removeChar_keep ?_
    intro x hx
    rcases List.mem_append.mp hx with h | h
    · exact isDigit_ne (ha2 _ h) hs
    · rcases List.mem_append.mp h with h | h
      · exact isDigit_ne (hb2 _ h) hs
      · rcases List.mem_cons.mp h with h | h
        · rw [h]; exact fun he => hs2 he.symm
        · exact isDigit_ne (hc2 _ h) hs
  rw [hkeep ' ' (by decide) (by decide), hkeep '\u00A0' (by decide) (by decide),
    hkeep '€' (by decide) (by decide), hkeep '$' (by decide) (by decide),
    hkeep '£' (by decide) (by decide)]

/-- `cleanAmount` on a string of the form `‹digits›,‹digits›`: the comma is
treated as the decimal separator. -/
theorem cleanAmount_only_comma {a c : List Char}
    (ha : a.all Char.isDigit = true) (hc : c.all Char.isDigit = true) :
    cleanAmount (String.mk (a ++ ',' :: c)) = a ++ '.' :: c := by
  have ha2 := List.all_eq_true.mp ha
  have hc2 := List.all_eq_true.mp hc
  have hnospace : ∀ x ∈ a ++ ',' :: c, isPySpace x = false := by
    intro x hx
    rcases List.mem_append.mp hx with h | h
    · exact isPySpace_of_isDigit (ha2 _ h)
    · rcases List.mem_cons.mp h with h | h
      · rw [h]; decide
      · exact isPySpace_of_isDigit (hc2 _ h)
  have hnodot : ('.' : Char) ∉ a ++ ',' :: c := by
    intro hmem
    rcases List.mem_append.mp hmem with h | h
    · exact isDigit_ne (ha2 _ h) (by decide) rfl
    · rcases List.mem_cons.mp h with h | h
      · exact absurd h (by decide)
      · exact isDigit_ne (hc2 _ h) (by decide) rfl
  have hmemc : (',' : Char) ∈ a ++ ',' :: c := by simp
  simp only [cleanAmount]
  rw [show (String.mk (a ++ ',' :: c)).toList = a ++ ',' :: c from rfl,
    listStrip_eq_self hnospace,
    containsChar_iff.mpr hmemc, containsChar_eq_false hnodot]
  simp only [Bool.and_false, Bool.false_eq_true, if_false, if_true]
  have hrep : replaceChar ',' '.' (a ++ ',' :: c) = a ++ '.' :: c := by
    unfold replaceChar
    rw [List.map_append, List.map_cons]
    rw [map_keep (by
        intro x hx
        simp [isDigit_ne (ha2 _ hx) (by decide : (',' : Char).isDigit = false)]),
      map_keep (by
        intro x hx
        simp [isDigit_ne (hc2 _ hx) (by decide : (',' : Char).isDigit = false)])]
    simp
  rw [hrep]
  have hkeep : ∀ s : Char, s.isDigit = false → s ≠ '.' →
      removeChar s (a ++ '.' :: c) = a ++ '.' :: c := by
    intro s hs hs2
    refine removeChar_keep ?_
    intro x hx
    rcases List.mem_append.mp hx with h | h
    · exact isDigit_ne (ha2 _ h) hs
    · rcases List.mem_cons.mp h with h | h
      · rw [h]; exact fun he => hs2 he.symm
      · exact isDigit_ne (hc2 _ h) hs
  rw [hkeep ' ' (by decide) (by decide), hkeep '\u00A0' (by decide) (by decide),
    hkeep '€' (by decide) (by decide), hkeep '$' (by decide) (by decide),
    hkeep '£' (by decide) (by decide)]

/-- `Decimal` on a cleaned numeral `‹digits›.‹digits›` (nonempty integer
part): the exact rational value. -/
theorem decParse_digits_point {a c : List Char}
    (ha : a.all Char.isDigit = true) (hc : c.all Char.isDigit = true)
    (hane : a ≠ []) :
    decParse (String.mk (a ++ '.' :: c))
      = some ((digitsVal a : Rat) + (digitsVal c : Rat) / (10 : Rat) ^ c.length) := by
  have ha2 := List.all_eq_true.mp ha
  have hc2 := List.all_eq_true.mp hc
  obtain ⟨d, a1, rfl⟩ : ∃ d a1, a = d :: a1 := by
    cases a with
    | nil => exact absurd rfl hane
    | cons d a1 => exact ⟨d, a1, rfl⟩
  have hd : d.isDigit = true := ha2 d (by simp)
  have ha1 : ∀ y ∈ a1, y.isDigit = true := fun y hy => ha2 y (by simp [hy])
  have hnospace : ∀ x ∈ (d :: a1) ++ '.' :: c, isPySpace x = false := by
    intro x hx
    rcases List.mem_append.mp hx with h | h
    · exact isPySpace_of_isDigit (ha2 _ h)
    · rcases List.mem_cons.mp h with h | h
      · rw [h]; decide
      · exact isPySpace_of_isDigit (hc2 _ h)
  have htake : ((d :: a1) ++ '.' :: c).takeWhile Char.isDigit = d :: a1 :=
    takeWhile_append_cons (by
      intro y hy
      rcases List.mem_cons.mp hy with h | h
      · rw [h]; exact hd
      · exact ha1 y h) (by decide)
  have hdrop : ((d :: a1) ++ '.' :: c).dropWhile Char.isDigit = '.' :: c :=
    dropWhile_append_cons (by
      intro y hy
      rcases List.mem_cons.mp hy with h | h
      · rw [h]; exact hd
      · exact ha1 y h) (by decide)
  unfold decParse
  rw [show (String.mk ((d :: a1) ++ '.' :: c)).toList = (d :: a1) ++ '.' :: c
      from rfl,
    listStrip_eq_self hnospace, List.cons_append]
  have hplus : d ≠ '+' := isDigit_ne hd (by decide)
  have hminus : d ≠ '-' := isDigit_ne hd (by decide)
  split
  · next heq =>
      injection heq with h1 h2
      exact absurd h1 hplus
  · next heq =>
      injection heq with h1 h2
      exact absurd h1 hminus
  · next =>
      rw [show (d :: (a1 ++ '.' :: c) : List Char) = (d :: a1) ++ '.' :: c
          from by simp]
      unfold decParseUnsigned
      rw [htake, hdrop]
      simp [hc, List.isEmpty_eq_true]

theorem parse_amount_both_comma_last {a b c : List Char}
    (ha : a.all Char.isDigit = true) (hb : b.all Char.isDigit = true)
    (hc : c.all Char.isDigit = true) (hane : a ≠ []) :
    parse_amount (String.mk (a ++ '.' :: (b ++ ',' :: c)))
      = .ok ((digitsVal (a ++ b) : Rat) + (digitsVal c : Rat) / (10 : Rat) ^ c.length) := by
  unfold parse_amount
  rw [cleanAmount_both_comma_last ha hb hc,
    show a ++ (b ++ '.' :: c) = (a ++ b) ++ '.' :: c by simp,
    decParse_digits_point (by simp [List.all_append, ha, hb]) hc
      (fun h => hane (List.append_eq_nil.mp h).1)]

theorem parse_amount_both_dot_last {a b c : List Char}
    (ha : a.all Char.isDigit = true) (hb : b.all Char.isDigit = true)
    (hc : c.all Char.isDigit = true) (hane : a ≠ []) :
    parse_amount (String.mk (a ++ ',' :: (b ++ '.' :: c)))
      = .ok ((digitsVal (a ++ b) : Rat) + (digitsVal c : Rat) / (10 : Rat) ^ c.length) := by
  unfold parse_amount
  rw [cleanAmount_both_dot_last ha hb hc,
    show a ++ (b ++ '.' :: c) = (a ++ b) ++ '.' :: c by simp,
    decParse_digits_point (by simp [List.all_append, ha, hb]) hc
      (fun h => hane (List.append_eq_nil.mp h).1)]

theorem parse_amount_only_comma {a c : List Char}
    (ha : a.all Char.isDigit = true) (hc : c.all Char.isDigit = true)
    (hane : a ≠ []) :
    parse_amount (String.mk (a ++ ',' :: c))
      = .ok ((digitsVal a : Rat) + (digitsVal c : Rat) / (10 : Rat) ^ c.length) := by
  unfold parse_amount
  rw [cleanAmount_only_comma ha hc, decParse_digits_point ha hc hane]

theorem not_mem_removeChar (t : Char) (xs : List Char) : t ∉ removeChar t xs := by
  intro h
  have := (List.mem_filter.mp h).2
  simp at this

theorem mem_of_mem_removeChar {t x : Char} {xs : List Char}
    (h : x ∈ removeChar t xs) : x ∈ xs :=
  List.mem_of_mem_filter h

/-- The cleaned amount string contains no space, non-breaking space or
currency symbol: they are all stripped before the `Decimal` conversion. -/
theorem cleanAmount_no_junk (value : String) :
    ∀ sym ∈ ([' ', '\u00A0', '€', '$', '£'] : List Char), sym ∉ cleanAmount value := by
  have key : ∀ (v1 : List Char), ∀ sym ∈ ([' ', '\u00A0', '€', '$', '£'] : List Char),
      sym ∉ removeChar '£' (removeChar '$' (removeChar '€'
        (removeChar '\u00A0' (removeChar ' ' v1)))) := by
    intro v1 sym hsym h
    simp only [List.mem_cons, List.not_mem_nil, or_false] at hsym
    rcases hsym with rfl | rfl | rfl | rfl | rfl
    · exact not_mem_removeChar ' ' v1
        (mem_of_mem_removeChar (mem_of_mem_removeChar
          (mem_of_mem_removeChar (mem_of_mem_removeChar h))))
    · exact not_mem_removeChar '\u00A0' (removeChar ' ' v1)
        (mem_of_mem_removeChar (mem_of_mem_removeChar (mem_of_mem_removeChar h)))
    · exact not_mem_removeChar '€' _
        (mem_of_mem_removeChar (mem_of_mem_removeChar h))
    · exact not_mem_removeChar '$' _ (mem_of_mem_removeChar h)
    · exact not_mem_removeChar '£' _ h
  intro sym hsym
  simp only [cleanAmount]
  exact key _ sym hsym

/-- C3: amount parsing treats the later of comma/period as the decimal point
(proved for all digit groups, with the spec's two examples), treats a lone
comma as the decimal separator, strips currency symbols and (non-breaking)
spaces before conversion, and fails with the unparseable-amount error when
the cleaned string is not a decimal numeral. -/
theorem c3_amount_parsing :
    (∀ a b c : List Char, a.all Char.isDigit = true → b.all Char.isDigit = true →
       c.all Char.isDigit = true → a ≠ [] →
       parse_amount (String.mk (a ++ '.' :: (b ++ ',' :: c)))
         = .ok ((digitsVal (a ++ b) : Rat) + (digitsVal c : Rat) / (10 : Rat) ^ c.length)
       ∧ parse_amount (String.mk (a ++ ',' :: (b ++ '.' :: c)))
         = .ok ((digitsVal (a ++ b) : Rat) + (digitsVal c : Rat) / (10 : Rat) ^ c.length))
    ∧ (∀ a c : List Char, a.all Char.isDigit = true → c.all Char.isDigit = true →
       a ≠ [] →
       parse_amount (String.mk (a ++ ',' :: c))
         = .ok ((digitsVal a : Rat) + (digitsVal c : Rat) / (10 : Rat) ^ c.length))
    ∧ parse_amount "1.234,56" = .ok ((123456 : Rat) / 100)
    ∧ parse_amount "1,234.56" = .ok ((123456 : Rat) / 100)
    ∧ (∀ value, ∀ sym ∈ ([' ', '\u00A0', '€', '$', '£'] : List Char),
        sym ∉ cleanAmount value)
    ∧ (∀ value, decParse (String.mk (cleanAmount value)) = none →
        parse_amount value = .error ("Impossible de parser le montant: " ++ sq
          ++ String.mk (cleanAmount value) ++ sq))
    ∧ parse_amount "abc"
        = .error ("Impossible de parser le montant: " ++ sq ++ "abc" ++ sq) := by
  have hex1 : parse_amount "1.234,56" = .ok ((123456 : Rat) / 100) := by
    rw [show ("1.234,56" : String)
        = String.mk (['1'] ++ '.' :: (['2', '3', '4'] ++ ',' :: ['5', '6'])) from rfl,
      parse_amount_both_comma_last (by decide) (by decide) (by decide) (by decide),
      show digitsVal (['1'] ++ ['2', '3', '4']) = 1234 from by decide,
      show digitsVal ['5', '6'] = 56 from by decide,
      show (['5', '6'] : List Char).length = 2 from rfl]
    norm_num
  have hex2 : parse_amount "1,234.56" = .ok ((123456 : Rat) / 100) := by
    rw [show ("1,234.56" : String)
        = String.mk (['1'] ++ ',' :: (['2', '3', '4'] ++ '.' :: ['5', '6'])) from rfl,
      parse_amount_both_dot_last (by decide) (by decide) (by decide) (by decide),
      show digitsVal (['1'] ++ ['2', '3', '4']) = 1234 from by decide,
      show digitsVal ['5', '6'] = 56 from by decide,
      show (['5', '6'] : List Char).length = 2 from rfl]
    norm_num
  refine ⟨fun a b c ha hb hc hane =>
      ⟨parse_amount_both_comma_last ha hb hc hane,
       parse_amount_both_dot_last ha hb hc hane⟩,
    fun a c ha hc hane => parse_amount_only_comma ha hc hane,
    hex1, hex2, fun value => cleanAmount_no_junk value, ?_, ?_⟩
  · intro value h
    unfold parse_amount
    rw [h]
  · have hclean : cleanAmount "abc" = ['a', 'b', 'c'] := by decide
    unfold parse_amount
    rw [hclean, show decParse (String.mk ['a', 'b', 'c']) = none from by decide]

/-- Witness for C3 at the digit groups of `"1.234,56"`. -/
theorem c3_amount_parsing_witness :
    (['1'] : List Char).all Char.isDigit = true ∧
      parse_amount (String.mk (['1'] ++ '.' :: (['2', '3', '4'] ++ ',' :: ['5', '6'])))
        = .ok ((digitsVal (['1'] ++ ['2', '3', '4']) : Rat)
            + (digitsVal ['5', '6'] : Rat) / (10 : Rat) ^ (['5', '6'] : List Char).length) :=
  ⟨by decide,
   (c3_amount_parsing.1 ['1'] ['2', '3', '4'] ['5', '6']
     (by decide) (by decide) (by decide) (by decide)).1⟩

theorem parse_amount_2000 : parse_amount "20,00" = .ok 20 := by
  rw [show ("20,00" : String) = String.mk (['2', '0'] ++ ',' :: ['0', '0']) from rfl,
    parse_amount_only_comma (by decide) (by decide) (by decide)]
  norm_num [show digitsVal ['2', '0'] = 20 from by decide,
    show digitsVal ['0', '0'] = 0 from by decide]

theorem parse_amount_5000 : parse_amount "50,00" = .ok 50 := by
  rw [show ("50,00" : String) = String.mk (['5', '0'] ++ ',' :: ['0', '0']) from rfl,
    parse_amount_only_comma (by decide) (by decide) (by decide)]
  norm_num [show digitsVal ['5', '0'] = 50 from by decide,
    show digitsVal ['0', '0'] = 0 from by decide]

/-- In the fallback, a present credit value overwrites whatever the debit
produced: the result is `abs(credit)` (or the missing-amount error when that
is zero), regardless of the debit value. -/
theorem fallback_credit_wins (row : Row) (dcol ccol : String) (qd qc : Rat)
    (hd : pyStrip (rowGetD row dcol) ≠ "") (hc : pyStrip (rowGetD row ccol) ≠ "")
    (hpd : parse_amount (rowGetD row dcol) = .ok qd)
    (hpc : parse_amount (rowGetD row ccol) = .ok qc) :
    fallback_amount row (some dcol) (some ccol)
      = if |qc| = 0 then .error "Montant manquant" else .ok |qc| := by
  simp only [fallback_amount]
  rw [if_pos hd, hpd]
  simp only [Except.map, Except.bind]
  rw [if_pos hc, hpc]

/-- In the fallback, a debit value with an empty credit cell yields
`-abs(debit)` (or the missing-amount error when that is zero). -/
theorem fallback_debit_only (row : Row) (dcol ccol : String) (qd : Rat)
    (hd : pyStrip (rowGetD row dcol) ≠ "") (hc : pyStrip (rowGetD row ccol) = "")
    (hpd : parse_amount (rowGetD row dcol) = .ok qd) :
    fallback_amount row (some dcol) (some ccol)
      = if -|qd| = 0 then .error "Montant manquant" else .ok (-|qd|) := by
  simp only [fallback_amount]
  rw [if_pos hd, hpd]
  simp only [Except.map, Except.bind]
  rw [if_neg (not_not_intro hc)]

/-- In the fallback, a credit value with an empty debit cell yields
`abs(credit)` (or the missing-amount error when that is zero). -/
theorem fallback_credit_only (row : Row) (dcol ccol : String) (qc : Rat)
    (hd : pyStrip (rowGetD row dcol) = "") (hc : pyStrip (rowGetD row ccol) ≠ "")
    (hpc : parse_amount (rowGetD row ccol) = .ok qc) :
    fallback_amount row (some dcol) (some ccol)
      = if |qc| = 0 then .error "Montant manquant" else .ok |qc| := by
  simp only [fallback_amount]
  rw [if_neg (not_not_intro hd)]
  simp only [Except.bind]
  rw [if_pos hc, hpc]
  simp only [Except.map]

/-- On the debit/credit headers, row conversion reduces to the fallback
amount (description and defaulted date aside). -/
theorem row_to_transaction_dc (row : Row) (uid acct cur id : String)
    (now : DateTime) (hdesc : pyStrip (rowGetD row "description") ≠ "") :
    row_to_transaction row dcHeaders uid acct cur id now
      = (fallback_amount row (some "debit") (some "credit")).map (fun amount =>
          { id := id, user_id := uid, account_id := acct, amount := amount,
            currency := cur, date := now,
            description := pyStrip (rowGetD row "description"),
            is_manual := false, status := .completed }) := by
  have h1 : find_column dcHeaders DATE_COLUMNS = none := by decide
  have h2 : find_column dcHeaders DESCRIPTION_COLUMNS = some "description" := by decide
  have h3 : find_column dcHeaders AMOUNT_COLUMNS = none := by decide
  have h4 : find_column dcHeaders DEBIT_COLUMNS = some "debit" := by decide
  have h5 : find_column dcHeaders CREDIT_COLUMNS = some "credit" := by decide
  simp only [row_to_transaction, h1, h2, h3, h4, h5, Option.isNone_some,
    Option.isNone_none, Bool.and_false, Bool.false_and, Bool.false_eq_true,
    if_false]
  rw [if_neg hdesc]

/-- C4 counterexample: on a row carrying debit "20,00" and credit "50,00",
the claim ("credit wins over debit only when both are present and the amount
is still zero") predicts the debit-derived amount -20.00, since the amount
after the debit step is non-zero; the code nevertheless lets the credit win
and produces +50.00. -/
theorem c4_counterexample :
    (row_to_transaction dcBothRow dcHeaders "u" "a" "EUR" "t1" now0).map
        Transaction.amount = .ok 50
      ∧ ¬ ((50 : Rat) = -20) := by
  constructor
  · rw [row_to_transaction_dc dcBothRow "u" "a" "EUR" "t1" now0 (by decide),
      fallback_credit_wins dcBothRow "debit" "credit" 20 50 (by decide) (by decide)
        (by rw [show rowGetD dcBothRow "debit" = "20,00" from by decide];
            exact parse_amount_2000)
        (by rw [show rowGetD dcBothRow "credit" = "50,00" from by decide];
            exact parse_amount_5000)]
    norm_num [Except.map]
  · norm_num

/-- C4 (amended): in the no-amount-column fallback the converted amount is
`-abs(debit)` when a debit value is present and `abs(credit)` when a credit
value is present, with the credit overwriting any debit-derived amount
whenever a credit value is present (not only when the amount is still zero);
a zero fallback amount fails the row; a row with debit "20,00" and empty
credit yields -20.00 and a row with credit "50,00" yields +50.00. -/
theorem c4_debit_credit_fallback :
    (∀ (row : Row) (dcol ccol : String) (qd qc : Rat),
       pyStrip (rowGetD row dcol) ≠ "" → pyStrip (rowGetD row ccol) ≠ "" →
       parse_amount (rowGetD row dcol) = .ok qd →
       parse_amount (rowGetD row ccol) = .ok qc →
       fallback_amount row (some dcol) (some ccol)
         = if |qc| = 0 then .error "Montant manquant" else .ok |qc|)
    ∧ (∀ (row : Row) (dcol ccol : String) (qd : Rat),
       pyStrip (rowGetD row dcol) ≠ "" → pyStrip (rowGetD row ccol) = "" →
       parse_amount (rowGetD row dcol) = .ok qd →
       fallback_amount row (some dcol) (some ccol)
         = if -|qd| = 0 then .error "Montant manquant" else .ok (-|qd|))
    ∧ (row_to_transaction dcDebitRow dcHeaders "u" "a" "EUR" "t1" now0).map
        Transaction.amount = .ok (-20)
    ∧ (row_to_transaction dcCreditRow dcHeaders "u" "a" "EUR" "t1" now0).map
        Transaction.amount = .ok 50 := by
  refine ⟨fun row dcol ccol qd qc hd hc hpd hpc =>
      fallback_credit_wins row dcol ccol qd qc hd hc hpd hpc,
    fun row dcol ccol qd hd hc hpd => fallback_debit_only row dcol ccol qd hd hc hpd,
    ?_, ?_⟩
  · rw [row_to_transaction_dc dcDebitRow "u" "a" "EUR" "t1" now0 (by decide),
      fallback_debit_only dcDebitRow "debit" "credit" 20 (by decide) (by decide)
        (by rw [show rowGetD dcDebitRow "debit" = "20,00" from by decide];
            exact parse_amount_2000)]
    norm_num [Except.map]
  · rw [row_to_transaction_dc dcCreditRow "u" "a" "EUR" "t1" now0 (by decide),
      fallback_credit_only dcCreditRow "debit" "credit" 50 (by decide) (by decide)
        (by rw [show rowGetD dcCreditRow "credit" = "50,00" from by decide]
            exact parse_amount_5000)]
    norm_num [Except.map]

/-- Witness for C4 (amended) at the both-present row. -/
theorem c4_debit_credit_fallback_witness :
    pyStrip (rowGetD dcBothRow "debit") ≠ "" ∧
      fallback_amount dcBothRow (some "debit") (some "credit")
        = if |(50 : Rat)| = 0 then .error "Montant manquant" else .ok |(50 : Rat)| :=
  ⟨by decide,
   c4_debit_credit_fallback.1 dcBothRow "debit" "credit" 20 50 (by decide) (by decide)
     (by rw [show rowGetD dcBothRow "debit" = "20,00" from by decide];
         exact parse_amount_2000)
     (by rw [show rowGetD dcBothRow "credit" = "50,00" from by decide];
         exact parse_amount_5000)⟩

/-- `_row_to_transaction` decomposed through the resolved pieces. -/
theorem row_to_transaction_eq (row : Row) (headers : List String)
    (uid acct cur id : String) (now : DateTime) :
    row_to_transaction row headers uid acct cur id now =
      if ((find_column headers AMOUNT_COLUMNS).isNone
         && (find_column headers DEBIT_COLUMNS).isNone
         && (find_column headers CREDIT_COLUMNS).isNone) = true then
        .error ("Colonne montant introuvable. Colonnes disponibles: "
          ++ pyReprList headers)
      else if resolvedDescription row headers = "" then
        .error "Description manquante"
      else
        (resolvedAmount row headers).map (fun amount =>
          { id := id, user_id := uid, account_id := acct, amount := amount,
            currency := cur, date := resolvedDate row headers now,
            description := resolvedDescription row headers,
            is_manual := false, status := .completed }) := rfl

/-- C5: a missing date column, a blank date cell or an unparseable date value
never fails a row — the transaction's date then defaults to the processing
time; every row failure is the missing-amount-column error, the missing
description or an amount error (never the date); a resolved-empty
description or a failing amount fails the row, and at the parse level the
failure carries the row's line index. -/
theorem c5_date_defaults_desc_amount_required :
    (∀ (row : Row) (headers : List String) (uid acct cur id : String)
       (now : DateTime) (t : Transaction),
       (find_column headers DATE_COLUMNS = none
         ∨ ∃ c, find_column headers DATE_COLUMNS = some c
             ∧ (pyStrip (rowGetD row c) = "" ∨ parse_date (rowGetD row c) = none)) →
       row_to_transaction row headers uid acct cur id now = .ok t → t.date = now)
    ∧ (∀ (row : Row) (headers : List String) (uid acct cur id : String)
       (now : DateTime) (e : String),
       row_to_transaction row headers uid acct cur id now = .error e →
       (((find_column headers AMOUNT_COLUMNS).isNone
           && (find_column headers DEBIT_COLUMNS).isNone
           && (find_column headers CREDIT_COLUMNS).isNone) = true
         ∧ e = "Colonne montant introuvable. Colonnes disponibles: "
             ++ pyReprList headers)
       ∨ (resolvedDescription row headers = "" ∧ e = "Description manquante")
       ∨ resolvedAmount row headers = .error e)
    ∧ (∀ (row : Row) (headers : List String) (uid acct cur id : String)
       (now : DateTime),
       ¬ (((find_column headers AMOUNT_COLUMNS).isNone
           && (find_column headers DEBIT_COLUMNS).isNone
           && (find_column headers CREDIT_COLUMNS).isNone) = true) →
       resolvedDescription row headers = "" →
       row_to_transaction row headers uid acct cur id now
         = .error "Description manquante")
    ∧ (∀ (row : Row) (headers : List String) (uid acct cur id : String)
       (now : DateTime) (e : String),
       ¬ (((find_column headers AMOUNT_COLUMNS).isNone
           && (find_column headers DEBIT_COLUMNS).isNone
           && (find_column headers CREDIT_COLUMNS).isNone) = true) →
       resolvedDescription row headers ≠ "" →
       resolvedAmount row headers = .error e →
       row_to_transaction row headers uid acct cur id now = .error e)
    ∧ (parse_csv_rows ["date", "description", "amount"]
         [[("date", "bogus"), ("description", ""), ("amount", "1")]]
         "u" "a" "EUR" (fun i => toString i) now0).2
        = ["Ligne 2: Description manquante"] := by
  have part3 : ∀ (row : Row) (headers : List String) (uid acct cur id : String)
      (now : DateTime),
      ¬ (((find_column headers AMOUNT_COLUMNS).isNone
          && (find_column headers DEBIT_COLUMNS).isNone
          && (find_column headers CREDIT_COLUMNS).isNone) = true) →
      resolvedDescription row headers = "" →
      row_to_transaction row headers uid acct cur id now
        = .error "Description manquante" := by
    intro row headers uid acct cur id now hguard hdesc
    rw [row_to_transaction_eq, if_neg hguard, if_pos hdesc]
  refine ⟨?_, ?_, part3, ?_, ?_⟩
  · intro row headers uid acct cur id now t hdate hok
    rw [row_to_transaction_eq] at hok
    split at hok
    · exact absurd hok (by simp)
    · split at hok
      · exact absurd hok (by simp)
      · cases hA : resolvedAmount row headers with
        | error e => rw [hA] at hok; exact absurd hok (by simp [Except.map])
        | ok q =>
            rw [hA] at hok
            simp only [Except.map] at hok
            injection hok with h
            rw [← h]
            show resolvedDate row headers now = now
            unfold resolvedDate
            rcases hdate with h | ⟨c, hc, hcase⟩
            · rw [h]
            · rw [hc]
              show (if pyStrip (rowGetD row c) ≠ "" then
                  (parse_date (rowGetD row c)).getD now else now) = now
              rcases hcase with h | h
              · rw [if_neg (not_not_intro h)]
              · by_cases hv : pyStrip (rowGetD row c) = ""
                · rw [if_neg (not_not_intro hv)]
                · rw [if_pos hv, h]
                  rfl
  · intro row headers uid acct cur id now e herr
    rw [row_to_transaction_eq] at herr
    split at herr
    · next hguard =>
        refine Or.inl ⟨hguard, ?_⟩
        simpa using herr.symm
    · split at herr
      · next hdesc =>
          refine Or.inr (Or.inl ⟨hdesc, ?_⟩)
          simpa using herr.symm
      · cases hA : resolvedAmount row headers with
        | error e2 =>
            rw [hA] at herr
            simp only [Except.map] at herr
            have he2 : e2 = e := by simpa using herr
            subst he2
            exact Or.inr (Or.inr rfl)
        | ok q => rw [hA] at herr; exact absurd herr (by simp [Except.map])
  · intro row headers uid acct cur id now e hguard hdesc hA
    rw [row_to_transaction_eq, if_neg hguard, if_neg hdesc, hA]
    rfl
  · have hrow : row_to_transaction
        [("date", "bogus"), ("description", ""), ("amount", "1")]
        ["date", "description", "amount"] "u" "a" "EUR" (toString 2) now0
        = .error "Description manquante" :=
      part3 _ _ _ _ _ _ _ (by decide) (by decide)
    simp only [parse_csv_rows, parse_csv_go, hrow]
    rw [if_neg (by decide)]
    rfl

/-- Witness for C5 at a concrete description-less row. -/
theorem c5_date_defaults_desc_amount_required_witness :
    ¬ (((find_column ["description", "amount"] AMOUNT_COLUMNS).isNone
        && (find_column ["description", "amount"] DEBIT_COLUMNS).isNone
        && (find_column ["description", "amount"] CREDIT_COLUMNS).isNone) = true)
    ∧ row_to_transaction [("description", " "), ("amount", "1")]
        ["description", "amount"] "u" "a" "EUR" "t1" now0
        = .error "Description manquante" :=
  ⟨by decide,
   c5_date_defaults_desc_amount_required.2.2.1
     [("description", " "), ("amount", "1")] ["description", "amount"]
     "u" "a" "EUR" "t1" now0 (by decide) (by decide)⟩

/-- The CSV row loop is a per-row `filterMap`: each row's outcome depends
only on that row and its index. -/
theorem parse_csv_go_eq (headers : List String) (uid acct cur : String)
    (mkId : Nat → String) (now : DateTime) :
    ∀ (i : Nat) (rows : List Row),
      parse_csv_go headers uid acct cur mkId now i rows
        = ((rows.enumFrom i).filterMap (csvRowTxn headers uid acct cur mkId now),
           (rows.enumFrom i).filterMap (csvRowErr headers uid acct cur mkId now)) := by
  intro i rows
  induction rows generalizing i with
  | nil => rfl
  | cons r rest ih =>
      rw [List.enumFrom_cons, List.filterMap_cons, List.filterMap_cons]
      simp only [parse_csv_go, ih (i + 1)]
      by_cases he : rowIsEmpty r = true
      · simp [csvRowTxn, csvRowErr, he]
      · cases hr : row_to_transaction r headers uid acct cur (mkId i) now with
        | ok t => simp [csvRowTxn, csvRowErr, he, hr]
        | error e => simp [csvRowTxn, csvRowErr, he, hr]

/-- The JSON element loop is a per-element `filterMap`. -/
theorem parse_json_go_eq (uid acct cur : String) (mkId : Nat → String)
    (now : DateTime) :
    ∀ (i : Nat) (items : List JsonItem),
      parse_json_go uid acct cur mkId now i items
        = ((items.enumFrom i).filterMap (jsonItemTxn uid acct cur mkId now),
           (items.enumFrom i).filterMap (jsonItemErr uid acct cur mkId now)) := by
  intro i items
  induction items generalizing i with
  | nil => rfl
  | cons item rest ih =>
      rw [List.enumFrom_cons, List.filterMap_cons, List.filterMap_cons]
      cases item with
      | nonObject => simp only [parse_json_go, ih (i + 1)]; simp [jsonItemTxn, jsonItemErr]
      | obj fields =>
          simp only [parse_json_go, ih (i + 1)]
          cases hr : row_to_transaction fields (fields.map (fun kv => kv.1)) uid acct
              cur (mkId i) now with
          | ok t => simp [jsonItemTxn, jsonItemErr, hr]
          | error e => simp [jsonItemTxn, jsonItemErr, hr]

/-- The PDF table-row loop is a per-row `filterMap`. -/
theorem parse_pdf_table_go_eq (pageNum tableIdx : Nat) (headers : List String)
    (uid acct cur : String) (ids : PdfIds) (now : DateTime) :
    ∀ (i : Nat) (rows : List (List (Option String))),
      parse_pdf_table_go pageNum tableIdx headers uid acct cur ids now i rows
        = ((rows.enumFrom i).filterMap
             (pdfRowTxn pageNum tableIdx headers uid acct cur ids now),
           (rows.enumFrom i).filterMap
             (pdfRowErr pageNum tableIdx headers uid acct cur ids now)) := by
  intro i rows
  induction rows generalizing i with
  | nil => rfl
  | cons cells rest ih =>
      rw [List.enumFrom_cons, List.filterMap_cons, List.filterMap_cons]
      simp only [parse_pdf_table_go, ih (i + 1)]
      by_cases he : (pdfRowDict headers cells).all (fun kv => kv.2 = "") = true
      · simp [pdfRowTxn, pdfRowErr, he]
      · cases hr : row_to_transaction (pdfRowDict headers cells) headers uid acct cur
            (ids.tableId pageNum tableIdx i) now with
        | ok t => simp [pdfRowTxn, pdfRowErr, he, hr]
        | error e => simp [pdfRowTxn, pdfRowErr, he, hr]

/-- The excel data-row loop is a per-row `filterMap`. -/
theorem parse_excel_go_eq (headers : List String) (uid acct cur : String)
    (mkId : Nat → String) (now : DateTime) :
    ∀ (i : Nat) (rows : List (List ExcelCell)),
      parse_excel_go headers uid acct cur mkId now i rows
        = ((rows.enumFrom i).filterMap (excelRowTxn headers uid acct cur mkId now),
           (rows.enumFrom i).filterMap (excelRowErr headers uid acct cur mkId now)) := by
  intro i rows
  induction rows generalizing i with
  | nil => rfl
  | cons cells rest ih =>
      rw [List.enumFrom_cons, List.filterMap_cons, List.filterMap_cons]
      simp only [parse_excel_go, ih (i + 1)]
      by_cases he : (excelRowDict headers cells).all (fun kv => pyStrip kv.2 = "") = true
      · simp [excelRowTxn, excelRowErr, he]
      · cases hr : row_to_transaction (excelRowDict headers cells) headers uid acct cur
            (mkId i) now with
        | ok t => simp [excelRowTxn, excelRowErr, he, hr]
        | error e => simp [excelRowTxn, excelRowErr, he, hr]

/-- One step of the narrative (text-mode) line loop: the head line contributes
at most one transaction and at most one error, and the loop always continues
on the remaining lines. -/
theorem wiseGo_cons_eq (uid acct cur : String) (mkId : Nat → String)
    (i : Nat) (l : String) (rest : List String) :
    wiseGo uid acct cur mkId i (l :: rest)
      = ((wiseLineTxn uid acct cur mkId i l (rest.take 3)).toList
           ++ (wiseGo uid acct cur mkId (i + 1) rest).1,
         (wiseLineErr l (rest.take 3)).toList
           ++ (wiseGo uid acct cur mkId (i + 1) rest).2) := by
  simp only [wiseGo, wiseLineTxn, wiseLineErr]
  cases h1 : searchAB (pyStrip l).toList with
  | none => simp
  | some pg =>
      obtain ⟨p, g1⟩ := pg
      cases h2 : firstFrDate (rest.take 3) with
      | none => simp
      | some d =>
          cases h3 : parse_amount (String.mk g1) with
          | ok a => simp [h3]
          | error e => simp [h3]

/-- C6, counterexample: in the PDF narrative (text) mode a bad line — one
whose amount-and-balance tail matches but whose three-line lookahead holds no
French date — is skipped and parsing continues, yet the accumulated error
message contains not a single digit: it carries no 1-based line reference,
contrary to the claim that every parser's row error is so indexed. -/
theorem c6_counterexample :
    (parse_wise_text "Carte -16,20 62,76\nno date here" "u" "a" "EUR"
        (fun i => toString i)).2
      = ["Date introuvable pour: Carte..."]
    ∧ ∀ ch ∈ ("Date introuvable pour: Carte..." : String).toList,
        ch.isDigit = false := by
  exact ⟨by decide, by decide⟩

/-- C6 (amended): a bad row never aborts parsing in any format. The row loops
of the CSV, Excel, JSON and PDF-table parsers are total per-row `filterMap`s,
so each bad row contributes exactly its one indexed error, every other row is
still converted, and the index in the error is the 1-based line reference
(data rows are numbered from 2, the header being line 1; JSON elements from
1). The PDF narrative mode isolates lines the same way — each step consumes
the head line, contributes at most one transaction and at most one error, and
always continues with the remaining lines — but its error strings name the
truncated description or the amount-parse failure without any line index. -/
theorem c6_per_row_isolation :
    (∀ (headers : List String) (rows : List Row) (uid acct cur : String)
       (mkId : Nat → String) (now : DateTime),
       parse_csv_rows headers rows uid acct cur mkId now
         = ((rows.enumFrom 2).filterMap (csvRowTxn headers uid acct cur mkId now),
            (rows.enumFrom 2).filterMap (csvRowErr headers uid acct cur mkId now)))
    ∧ (∀ (items : List JsonItem) (uid acct cur : String) (mkId : Nat → String)
       (now : DateTime),
       parse_json_items items uid acct cur mkId now
         = ((items.enumFrom 1).filterMap (jsonItemTxn uid acct cur mkId now),
            (items.enumFrom 1).filterMap (jsonItemErr uid acct cur mkId now)))
    ∧ (∀ (pageNum tableIdx : Nat) (header r : List (Option String))
       (rest : List (List (Option String))) (uid acct cur : String)
       (ids : PdfIds) (now : DateTime),
       parse_pdf_table pageNum tableIdx (header :: r :: rest) uid acct cur ids now
         = (((r :: rest).enumFrom 2).filterMap
              (pdfRowTxn pageNum tableIdx (header.map cellClean) uid acct cur ids now),
            ((r :: rest).enumFrom 2).filterMap
              (pdfRowErr pageNum tableIdx (header.map cellClean) uid acct cur ids now)))
    ∧ (∀ (header r : List ExcelCell) (rest : List (List ExcelCell))
       (uid acct cur : String) (mkId : Nat → String) (now : DateTime),
       parse_excel_rows (header :: r :: rest) uid acct cur mkId now
         = (((r :: rest).enumFrom 2).filterMap
              (excelRowTxn (header.map excelHeaderValue) uid acct cur mkId now),
            ((r :: rest).enumFrom 2).filterMap
              (excelRowErr (header.map excelHeaderValue) uid acct cur mkId now)))
    ∧ (∀ (uid acct cur : String) (mkId : Nat → String) (i : Nat) (l : String)
       (rest : List String),
       wiseGo uid acct cur mkId i (l :: rest)
         = ((wiseLineTxn uid acct cur mkId i l (rest.take 3)).toList
              ++ (wiseGo uid acct cur mkId (i + 1) rest).1,
            (wiseLineErr l (rest.take 3)).toList
              ++ (wiseGo uid acct cur mkId (i + 1) rest).2)) := by
  refine ⟨fun headers rows uid acct cur mkId now =>
      parse_csv_go_eq headers uid acct cur mkId now 2 rows,
    fun items uid acct cur mkId now => parse_json_go_eq uid acct cur mkId now 1 items,
    ?_, ?_, fun uid acct cur mkId i l rest =>
      wiseGo_cons_eq uid acct cur mkId i l rest⟩
  · intro pageNum tableIdx header r rest uid acct cur ids now
    show parse_pdf_table_go pageNum tableIdx (header.map cellClean) uid acct cur
        ids now 2 (r :: rest) = _
    exact parse_pdf_table_go_eq pageNum tableIdx (header.map cellClean) uid acct
      cur ids now 2 (r :: rest)
  · intro header r rest uid acct cur mkId now
    show parse_excel_go (header.map excelHeaderValue) uid acct cur mkId now 2
        (r :: rest) = _
    exact parse_excel_go_eq (header.map excelHeaderValue) uid acct cur mkId now 2
      (r :: rest)

/-- Witness for C6 at a concrete two-row CSV with one bad row. -/
theorem c6_per_row_isolation_witness :
    parse_csv_rows ["description", "amount"]
        [[("description", "ok"), ("amount", "20,00")],
         [("description", ""), ("amount", "20,00")]]
        "u" "a" "EUR" (fun i => toString i) now0
      = (([[("description", "ok"), ("amount", "20,00")],
           [("description", ""), ("amount", "20,00")]].enumFrom 2).filterMap
            (csvRowTxn ["description", "amount"] "u" "a" "EUR" (fun i => toString i) now0),
         ([[("description", "ok"), ("amount", "20,00")],
           [("description", ""), ("amount", "20,00")]].enumFrom 2).filterMap
            (csvRowErr ["description", "amount"] "u" "a" "EUR" (fun i => toString i) now0)) :=
  c6_per_row_isolation.1 ["description", "amount"]
    [[("description", "ok"), ("amount", "20,00")],
     [("description", ""), ("amount", "20,00")]]
    "u" "a" "EUR" (fun i => toString i) now0

/-- Row conversion under two different id supplies / clocks: either both runs
fail with the same error, or both succeed, with equal transactions up to the
generated id once the clocks agree. -/
theorem row_to_transaction_env (row : Row) (headers : List String)
    (uid acct cur id₁ id₂ : String) (now₁ now₂ : DateTime) :
    (∃ e, row_to_transaction row headers uid acct cur id₁ now₁ = .error e
        ∧ row_to_transaction row headers uid acct cur id₂ now₂ = .error e)
    ∨ (∃ t₁ t₂, row_to_transaction row headers uid acct cur id₁ now₁ = .ok t₁
        ∧ row_to_transaction row headers uid acct cur id₂ now₂ = .ok t₂
        ∧ (now₁ = now₂ → stripId t₁ = stripId t₂)) := by
  rw [row_to_transaction_eq row headers uid acct cur id₁ now₁,
    row_to_transaction_eq row headers uid acct cur id₂ now₂]
  split
  · exact Or.inl ⟨_, rfl, rfl⟩
  · split
    · exact Or.inl ⟨_, rfl, rfl⟩
    · cases hA : resolvedAmount row headers with
      | error e => exact Or.inl ⟨e, rfl, rfl⟩
      | ok q =>
          refine Or.inr ⟨_, _, rfl, rfl, ?_⟩
          intro h
          simp [stripId, h]

/-- CSV loop under two environments: identical errors, equally many
transactions, and identical transactions up to ids once the clocks agree. -/
theorem parse_csv_go_env (headers : List String) (uid acct cur : String)
    (mkId₁ mkId₂ : Nat → String) (now₁ now₂ : DateTime) :
    ∀ (i : Nat) (rows : List Row),
      (parse_csv_go headers uid acct cur mkId₁ now₁ i rows).2
        = (parse_csv_go headers uid acct cur mkId₂ now₂ i rows).2
      ∧ (parse_csv_go headers uid acct cur mkId₁ now₁ i rows).1.length
        = (parse_csv_go headers uid acct cur mkId₂ now₂ i rows).1.length
      ∧ (now₁ = now₂ →
        (parse_csv_go headers uid acct cur mkId₁ now₁ i rows).1.map stripId
          = (parse_csv_go headers uid acct cur mkId₂ now₂ i rows).1.map stripId) := by
  intro i rows
  induction rows generalizing i with
  | nil => exact ⟨rfl, rfl, fun _ => rfl⟩
  | cons r rest ih =>
      obtain ⟨ihE, ihL, ihT⟩ := ih (i + 1)
      simp only [parse_csv_go]
      by_cases he : rowIsEmpty r = true
      · simp only [he, if_true]
        exact ⟨ihE, ihL, ihT⟩
      · simp only [he, Bool.false_eq_true, if_false]
        rcases row_to_transaction_env r headers uid acct cur (mkId₁ i) (mkId₂ i)
            now₁ now₂ with ⟨e, h1, h2⟩ | ⟨t₁, t₂, h1, h2, hst⟩
        · rw [h1, h2]
          exact ⟨by simp [ihE], by simpa using ihL, fun h => by simpa using ihT h⟩
        · rw [h1, h2]
          refine ⟨by simpa using ihE, by simpa using ihL, fun h => ?_⟩
          simp only [List.map_cons]
          rw [hst h, ihT h]

/-- JSON loop under two environments. -/
theorem parse_json_go_env (uid acct cur : String) (mkId₁ mkId₂ : Nat → String)
    (now₁ now₂ : DateTime) :
    ∀ (i : Nat) (items : List JsonItem),
      (parse_json_go uid acct cur mkId₁ now₁ i items).2
        = (parse_json_go uid acct cur mkId₂ now₂ i items).2
      ∧ (parse_json_go uid acct cur mkId₁ now₁ i items).1.length
        = (parse_json_go uid acct cur mkId₂ now₂ i items).1.length
      ∧ (now₁ = now₂ →
        (parse_json_go uid acct cur mkId₁ now₁ i items).1.map stripId
          = (parse_json_go uid acct cur mkId₂ now₂ i items).1.map stripId) := by
  intro i items
  induction items generalizing i with
  | nil => exact ⟨rfl, rfl, fun _ => rfl⟩
  | cons item rest ih =>
      obtain ⟨ihE, ihL, ihT⟩ := ih (i + 1)
      cases item with
      | nonObject =>
          simp only [parse_json_go]
          exact ⟨by simp [ihE], by simpa using ihL, fun h => by simpa using ihT h⟩
      | obj fields =>
          simp only [parse_json_go]
          rcases row_to_transaction_env fields (fields.map (fun kv => kv.1)) uid acct
              cur (mkId₁ i) (mkId₂ i) now₁ now₂ with ⟨e, h1, h2⟩ | ⟨t₁, t₂, h1, h2, hst⟩
          · rw [h1, h2]
            exact ⟨by simp [ihE], by simpa using ihL, fun h => by simpa using ihT h⟩
          · rw [h1, h2]
            refine ⟨by simpa using ihE, by simpa using ihL, fun h => ?_⟩
            simp only [List.map_cons]
            rw [hst h, ihT h]

/-- Excel loop under two environments. -/
theorem parse_excel_go_env (headers : List String) (uid acct cur : String)
    (mkId₁ mkId₂ : Nat → String) (now₁ now₂ : DateTime) :
    ∀ (i : Nat) (rows : List (List ExcelCell)),
      (parse_excel_go headers uid acct cur mkId₁ now₁ i rows).2
        = (parse_excel_go headers uid acct cur mkId₂ now₂ i rows).2
      ∧ (parse_excel_go headers uid acct cur mkId₁ now₁ i rows).1.length
        = (parse_excel_go headers uid acct cur mkId₂ now₂ i rows).1.length
      ∧ (now₁ = now₂ →
        (parse_excel_go headers uid acct cur mkId₁ now₁ i rows).1.map stripId
          = (parse_excel_go headers uid acct cur mkId₂ now₂ i rows).1.map stripId) := by
  intro i rows
  induction rows generalizing i with
  | nil => exact ⟨rfl, rfl, fun _ => rfl⟩
  | cons cells rest ih =>
      obtain ⟨ihE, ihL, ihT⟩ := ih (i + 1)
      simp only [parse_excel_go]
      by_cases he : (excelRowDict headers cells).all (fun kv => pyStrip kv.2 = "") = true
      · simp only [he, if_true]
        exact ⟨ihE, ihL, ihT⟩
      · simp only [he, Bool.false_eq_true, if_false]
        rcases row_to_transaction_env (excelRowDict headers cells) headers uid acct
            cur (mkId₁ i) (mkId₂ i) now₁ now₂ with ⟨e, h1, h2⟩ | ⟨t₁, t₂, h1, h2, hst⟩
        · rw [h1, h2]
          exact ⟨by simp [ihE], by simpa using ihL, fun h => by simpa using ihT h⟩
        · rw [h1, h2]
          refine ⟨by simpa using ihE, by simpa using ihL, fun h => ?_⟩
          simp only [List.map_cons]
          rw [hst h, ihT h]

/-- PDF table-row loop under two environments. -/
theorem parse_pdf_table_go_env (pageNum tableIdx : Nat) (headers : List String)
    (uid acct cur : String) (ids₁ ids₂ : PdfIds) (now₁ now₂ : DateTime) :
    ∀ (i : Nat) (rows : List (List (Option String))),
      (parse_pdf_table_go pageNum tableIdx headers uid acct cur ids₁ now₁ i rows).2
        = (parse_pdf_table_go pageNum tableIdx headers uid acct cur ids₂ now₂ i rows).2
      ∧ (parse_pdf_table_go pageNum tableIdx headers uid acct cur ids₁ now₁ i rows).1.length
        = (parse_pdf_table_go pageNum tableIdx headers uid acct cur ids₂ now₂ i rows).1.length
      ∧ (now₁ = now₂ →
        (parse_pdf_table_go pageNum tableIdx headers uid acct cur ids₁ now₁ i rows).1.map stripId
          = (parse_pdf_table_go pageNum tableIdx headers uid acct cur ids₂ now₂ i rows).1.map stripId) := by
  intro i rows
  induction rows generalizing i with
  | nil => exact ⟨rfl, rfl, fun _ => rfl⟩
  | cons cells rest ih =>
      obtain ⟨ihE, ihL, ihT⟩ := ih (i + 1)
      simp only [parse_pdf_table_go]
      by_cases he : (pdfRowDict headers cells).all (fun kv => kv.2 = "") = true
      · simp only [he, if_true]
        exact ⟨ihE, ihL, ihT⟩
      · simp only [he, Bool.false_eq_true, if_false]
        rcases row_to_transaction_env (pdfRowDict headers cells) headers uid acct
            cur (ids₁.tableId pageNum tableIdx i) (ids₂.tableId pageNum tableIdx i)
            now₁ now₂ with ⟨e, h1, h2⟩ | ⟨t₁, t₂, h1, h2, hst⟩
        · rw [h1, h2]
          exact ⟨by simp [ihE], by simpa using ihL, fun h => by simpa using ihT h⟩
        · rw [h1, h2]
          refine ⟨by simpa using ihE, by simpa using ihL, fun h => ?_⟩
          simp only [List.map_cons]
          rw [hst h, ihT h]

/-- One PDF table under two environments. -/
theorem parse_pdf_table_env (pageNum tableIdx : Nat)
    (table : List (List (Option String))) (uid acct cur : String)
    (ids₁ ids₂ : PdfIds) (now₁ now₂ : DateTime) :
    (parse_pdf_table pageNum tableIdx table uid acct cur ids₁ now₁).2
      = (parse_pdf_table pageNum tableIdx table uid acct cur ids₂ now₂).2
    ∧ (parse_pdf_table pageNum tableIdx table uid acct cur ids₁ now₁).1.length
      = (parse_pdf_table pageNum tableIdx table uid acct cur ids₂ now₂).1.length
    ∧ (now₁ = now₂ →
      (parse_pdf_table pageNum tableIdx table uid acct cur ids₁ now₁).1.map stripId
        = (parse_pdf_table pageNum tableIdx table uid acct cur ids₂ now₂).1.map stripId) := by
  cases table with
  | nil => exact ⟨rfl, rfl, fun _ => rfl⟩
  | cons header rows =>
      cases rows with
      | nil => exact ⟨rfl, rfl, fun _ => rfl⟩
      | cons r rest =>
          exact parse_pdf_table_go_env pageNum tableIdx (header.map cellClean)
            uid acct cur ids₁ ids₂ now₁ now₂ 2 (r :: rest)

/-- All tables of a page under two environments. -/
theorem parse_pdf_page_tables_env (pageNum : Nat) (uid acct cur : String)
    (ids₁ ids₂ : PdfIds) (now₁ now₂ : DateTime) :
    ∀ (tIdx : Nat) (tables : List (List (List (Option String)))),
      (parse_pdf_page_tables pageNum uid acct cur ids₁ now₁ tIdx tables).2
        = (parse_pdf_page_tables pageNum uid acct cur ids₂ now₂ tIdx tables).2
      ∧ (parse_pdf_page_tables pageNum uid acct cur ids₁ now₁ tIdx tables).1.length
        = (parse_pdf_page_tables pageNum uid acct cur ids₂ now₂ tIdx tables).1.length
      ∧ (now₁ = now₂ →
        (parse_pdf_page_tables pageNum uid acct cur ids₁ now₁ tIdx tables).1.map stripId
          = (parse_pdf_page_tables pageNum uid acct cur ids₂ now₂ tIdx tables).1.map stripId) := by
  intro tIdx tables
  induction tables generalizing tIdx with
  | nil => exact ⟨rfl, rfl, fun _ => rfl⟩
  | cons tbl rest ih =>
      obtain ⟨ihE, ihL, ihT⟩ := ih (tIdx + 1)
      obtain ⟨hE, hL, hT⟩ := parse_pdf_table_env pageNum tIdx tbl uid acct cur
        ids₁ ids₂ now₁ now₂
      simp only [parse_pdf_page_tables]
      refine ⟨by rw [hE, ihE], by simp [List.length_append, hL, ihL], fun h => ?_⟩
      simp only [List.map_append]
      rw [hT h, ihT h]

/-- The whole table pass under two environments. -/
theorem parse_pdf_table_pass_env (uid acct cur : String) (ids₁ ids₂ : PdfIds)
    (now₁ now₂ : DateTime) :
    ∀ (pageNum : Nat) (pages : List PdfPage),
      (parse_pdf_table_pass uid acct cur ids₁ now₁ pageNum pages).2
        = (parse_pdf_table_pass uid acct cur ids₂ now₂ pageNum pages).2
      ∧ (parse_pdf_table_pass uid acct cur ids₁ now₁ pageNum pages).1.length
        = (parse_pdf_table_pass uid acct cur ids₂ now₂ pageNum pages).1.length
      ∧ (now₁ = now₂ →
        (parse_pdf_table_pass uid acct cur ids₁ now₁ pageNum pages).1.map stripId
          = (parse_pdf_table_pass uid acct cur ids₂ now₂ pageNum pages).1.map stripId) := by
  intro pageNum pages
  induction pages generalizing pageNum with
  | nil => exact ⟨rfl, rfl, fun _ => rfl⟩
  | cons p rest ih =>
      obtain ⟨ihE, ihL, ihT⟩ := ih (pageNum + 1)
      obtain ⟨hE, hL, hT⟩ := parse_pdf_page_tables_env pageNum uid acct cur
        ids₁ ids₂ now₁ now₂ 0 p.tables
      simp only [parse_pdf_table_pass]
      refine ⟨by rw [hE, ihE], by simp [List.length_append, hL, ihL], fun h => ?_⟩
      simp only [List.map_append]
      rw [hT h, ihT h]

/-- The Wise text loop under two id supplies: identical errors and identical
transactions up to ids (its dates come from the parsed lines, not the
clock). -/
theorem wiseGo_env (uid acct cur : String) (mkId₁ mkId₂ : Nat → String) :
    ∀ (i : Nat) (lines : List String),
      (wiseGo uid acct cur mkId₁ i lines).2 = (wiseGo uid acct cur mkId₂ i lines).2
      ∧ (wiseGo uid acct cur mkId₁ i lines).1.length
        = (wiseGo uid acct cur mkId₂ i lines).1.length
      ∧ (wiseGo uid acct cur mkId₁ i lines).1.map stripId
        = (wiseGo uid acct cur mkId₂ i lines).1.map stripId := by
  intro i lines
  induction lines generalizing i with
  | nil => exact ⟨rfl, rfl, rfl⟩
  | cons l rest ih =>
      obtain ⟨ihE, ihL, ihT⟩ := ih (i + 1)
      simp only [wiseGo]
      cases h1 : searchAB (pyStrip l).toList with
      | none => exact ⟨ihE, ihL, ihT⟩
      | some pg =>
          obtain ⟨p, g1⟩ := pg
          cases h2 : firstFrDate (rest.take 3) with
          | none => exact ⟨by simp [ihE], by simpa using ihL, by simpa using ihT⟩
          | some d =>
              cases h3 : parse_amount (String.mk g1) with
              | error e => exact ⟨by simp [h3, ihE], by simp [h3, ihL], by simp [h3, ihT]⟩
              | ok a =>
                  refine ⟨by simp [h3, ihE], by simp [h3, ihL], ?_⟩
                  simp only [h3, List.map_cons]
                  rw [ihT]
                  simp [stripId]

/-- `parse_excel_rows` under two environments. -/
theorem parse_excel_rows_env (rows : List (List ExcelCell)) (uid acct cur : String)
    (mkId₁ mkId₂ : Nat → String) (now₁ now₂ : DateTime) :
    (parse_excel_rows rows uid acct cur mkId₁ now₁).2
      = (parse_excel_rows rows uid acct cur mkId₂ now₂).2
    ∧ (parse_excel_rows rows uid acct cur mkId₁ now₁).1.length
      = (parse_excel_rows rows uid acct cur mkId₂ now₂).1.length
    ∧ (now₁ = now₂ →
      (parse_excel_rows rows uid acct cur mkId₁ now₁).1.map stripId
        = (parse_excel_rows rows uid acct cur mkId₂ now₂).1.map stripId) := by
  cases rows with
  | nil => exact ⟨rfl, rfl, fun _ => rfl⟩
  | cons header rest =>
      cases rest with
      | nil => exact ⟨rfl, rfl, fun _ => rfl⟩
      | cons r rest2 =>
          exact parse_excel_go_env (header.map excelHeaderValue) uid acct cur
            mkId₁ mkId₂ now₁ now₂ 2 (r :: rest2)

/-- `parse_pdf` under two environments: same errors, same number of
transactions, and identical transactions up to ids once the clocks agree
(in particular the mode choice — tables vs narrative text — is the same). -/
theorem parse_pdf_env (pages : List PdfPage) (uid acct cur : String)
    (ids₁ ids₂ : PdfIds) (now₁ now₂ : DateTime) :
    (parse_pdf pages uid acct cur ids₁ now₁).2
      = (parse_pdf pages uid acct cur ids₂ now₂).2
    ∧ (parse_pdf pages uid acct cur ids₁ now₁).1.length
      = (parse_pdf pages uid acct cur ids₂ now₂).1.length
    ∧ (now₁ = now₂ →
      (parse_pdf pages uid acct cur ids₁ now₁).1.map stripId
        = (parse_pdf pages uid acct cur ids₂ now₂).1.map stripId) := by
  obtain ⟨hE, hL, hT⟩ := parse_pdf_table_pass_env uid acct cur ids₁ ids₂ now₁ now₂ 1 pages
  simp only [parse_pdf]
  by_cases hm : (parse_pdf_table_pass uid acct cur ids₁ now₁ 1 pages).1 = []
  · have hm2 : (parse_pdf_table_pass uid acct cur ids₂ now₂ 1 pages).1 = [] := by
      rw [← List.length_eq_zero, ← hL, List.length_eq_zero]
      exact hm
    rw [if_pos hm, if_pos hm2]
    by_cases ht : pyStrip (pdfAllText pages) ≠ ""
    · rw [if_pos ht, if_pos ht]
      obtain ⟨wE, wL, wT⟩ := wiseGo_env uid acct cur ids₁.textId ids₂.textId 0
        (pySplit '\n' (pdfAllText pages))
      simp only [parse_wise_text]
      by_cases h1 : (wiseGo uid acct cur ids₁.textId 0
          (pySplit '\n' (pdfAllText pages))).1 = []
      · have h1b : (wiseGo uid acct cur ids₂.textId 0
            (pySplit '\n' (pdfAllText pages))).1 = [] := by
          rw [← List.length_eq_zero, ← wL, List.length_eq_zero]
          exact h1
        by_cases h2 : (wiseGo uid acct cur ids₁.textId 0
            (pySplit '\n' (pdfAllText pages))).2 = []
        · have h2b : (wiseGo uid acct cur ids₂.textId 0
              (pySplit '\n' (pdfAllText pages))).2 = [] := by rw [← wE]; exact h2
          simp [h1, h1b, h2, h2b]
        · have h2b : ¬ (wiseGo uid acct cur ids₂.textId 0
              (pySplit '\n' (pdfAllText pages))).2 = [] := by rw [← wE]; exact h2
          simp [h1, h1b, h2, h2b, wE, wL, wT]
      · have h1b : ¬ (wiseGo uid acct cur ids₂.textId 0
            (pySplit '\n' (pdfAllText pages))).1 = [] := by
          rw [← List.length_eq_zero, ← wL, List.length_eq_zero]
          exact h1
        simp [h1, h1b, wE, wL, wT]
    · rw [if_neg ht, if_neg ht]
      exact ⟨rfl, rfl, fun _ => rfl⟩
  · have hm2 : ¬ (parse_pdf_table_pass uid acct cur ids₂ now₂ 1 pages).1 = [] := by
      rw [← List.length_eq_zero, ← hL, List.length_eq_zero]
      exact hm
    rw [if_neg hm, if_neg hm2]
    exact ⟨by simp [hm, hm2, hE], by simp [hm, hm2, hL],
      fun h => by simp [hm, hm2, hT h]⟩

/-- `parse_statement` under two environments: identical error lists, and
identical transactions up to generated ids once the clocks agree. -/
theorem parse_statement_env (content : FileContent) (uid acct cur : String)
    (env₁ env₂ : ParseEnv) :
    (parse_statement content uid acct cur env₁).2
      = (parse_statement content uid acct cur env₂).2
    ∧ (env₁.now = env₂.now →
      (parse_statement content uid acct cur env₁).1.map stripId
        = (parse_statement content uid acct cur env₂).1.map stripId) := by
  cases content with
  | csv headers rows =>
      obtain ⟨hE, _, hT⟩ := parse_csv_go_env headers uid acct cur env₁.rowId
        env₂.rowId env₁.now env₂.now 2 rows
      exact ⟨hE, hT⟩
  | excel rows =>
      obtain ⟨hE, _, hT⟩ := parse_excel_rows_env rows uid acct cur env₁.rowId
        env₂.rowId env₁.now env₂.now
      exact ⟨hE, hT⟩
  | json items =>
      obtain ⟨hE, _, hT⟩ := parse_json_go_env uid acct cur env₁.rowId env₂.rowId
        env₁.now env₂.now 1 items
      exact ⟨hE, hT⟩
  | pdf pages =>
      obtain ⟨hE, _, hT⟩ := parse_pdf_env pages uid acct cur env₁.pdfIds
        env₂.pdfIds env₁.now env₂.now
      exact ⟨hE, hT⟩

/-- C9: parsing is a pure function of the file content and the ambient
effects (uuid supply and clock): re-running any parser on the same content
produces the identical error list whatever ids and clock the re-run draws,
and the identical candidate transactions up to the freshly generated ids
when the clock reading agrees; moreover the CSV row loop carries no
cross-row state — parsing an appended row list is the concatenation of
parsing the parts (with the line counter advanced). -/
theorem c9_parse_idempotent :
    (∀ (content : FileContent) (uid acct cur : String) (env₁ env₂ : ParseEnv),
       (parse_statement content uid acct cur env₁).2
         = (parse_statement content uid acct cur env₂).2)
    ∧ (∀ (content : FileContent) (uid acct cur : String) (env₁ env₂ : ParseEnv),
       env₁.now = env₂.now →
       (parse_statement content uid acct cur env₁).1.map stripId
         = (parse_statement content uid acct cur env₂).1.map stripId)
    ∧ (∀ (headers : List String) (uid acct cur : String) (mkId : Nat → String)
       (now : DateTime) (i : Nat) (xs ys : List Row),
       parse_csv_go headers uid acct cur mkId now i (xs ++ ys)
         = ((parse_csv_go headers uid acct cur mkId now i xs).1
             ++ (parse_csv_go headers uid acct cur mkId now (i + xs.length) ys).1,
            (parse_csv_go headers uid acct cur mkId now i xs).2
             ++ (parse_csv_go headers uid acct cur mkId now (i + xs.length) ys).2)) := by
  refine ⟨fun content uid acct cur env₁ env₂ =>
      (parse_statement_env content uid acct cur env₁ env₂).1,
    fun content uid acct cur env₁ env₂ h =>
      (parse_statement_env content uid acct cur env₁ env₂).2 h,
    ?_⟩
  intro headers uid acct cur mkId now i xs ys
  rw [parse_csv_go_eq headers uid acct cur mkId now i (xs ++ ys),
    parse_csv_go_eq headers uid acct cur mkId now i xs,
    parse_csv_go_eq headers uid acct cur mkId now (i + xs.length) ys,
    List.enumFrom_append, List.filterMap_append, List.filterMap_append]

/-- Witness for C9 at a concrete CSV content and two environments sharing
the clock. -/
theorem c9_parse_idempotent_witness :
    envA.now = envB.now ∧
      (parse_statement csvContent0 "u" "a" "EUR" envA).1.map stripId
        = (parse_statement csvContent0 "u" "a" "EUR" envB).1.map stripId :=
  ⟨rfl, c9_parse_idempotent.2.1 csvContent0 "u" "a" "EUR" envA envB rfl⟩

/-- C7 counterexample: on a PDF page that does contain a table (whose rows
all fail conversion) alongside narrative text, the claim says the text-based
mode is used exactly when no tables are found — so here it must not run; the
code nevertheless enters text mode (the table pass produced zero
transactions), discards the table error, and emits the narrative
transaction. -/
theorem c7_counterexample :
    pdf_text_mode [wisePage] "u" "a" "EUR" idsX now0 = true
    ∧ wisePage.tables ≠ []
    ∧ (parse_pdf_table_pass "u" "a" "EUR" idsX now0 1 [wisePage]).2 ≠ []
    ∧ (parse_pdf [wisePage] "u" "a" "EUR" idsX now0).1.length = 1
    ∧ (parse_pdf [wisePage] "u" "a" "EUR" idsX now0).2 = [] := by
  refine ⟨by decide, by decide, by decide, ?_, ?_⟩ <;> decide

/-- C7 (amended): the text-based mode runs exactly when the table pass
produced zero transactions (tables may well exist; their accumulated errors
are then discarded); when the table pass produced transactions its result is
returned untouched; in text mode, a line whose tail matches the
amount-plus-balance pattern looks ahead up to three lines for a French date —
emitting the date-not-found error naming the (truncated) description when
none is there, and otherwise one transaction carrying that date and the
parsed signed amount. -/
theorem c7_pdf_text_mode :
    (∀ (pages : List PdfPage) (uid acct cur : String) (ids : PdfIds) (now : DateTime),
       pdf_text_mode pages uid acct cur ids now = true
         ↔ (parse_pdf_table_pass uid acct cur ids now 1 pages).1 = [])
    ∧ (∀ (pages : List PdfPage) (uid acct cur : String) (ids : PdfIds) (now : DateTime),
       (parse_pdf_table_pass uid acct cur ids now 1 pages).1 ≠ [] →
       parse_pdf pages uid acct cur ids now
         = parse_pdf_table_pass uid acct cur ids now 1 pages)
    ∧ (∀ (pages : List PdfPage) (uid acct cur : String) (ids : PdfIds) (now : DateTime),
       (parse_pdf_table_pass uid acct cur ids now 1 pages).1 = [] →
       pyStrip (pdfAllText pages) ≠ "" →
       parse_pdf pages uid acct cur ids now
         = (if (parse_wise_text (pdfAllText pages) uid acct cur ids.textId).1 = []
               && (parse_wise_text (pdfAllText pages) uid acct cur ids.textId).2 = [] then
              ([], ["Aucune transaction trouvee dans le PDF"])
            else parse_wise_text (pdfAllText pages) uid acct cur ids.textId))
    ∧ (∀ (uid acct cur : String) (mkId : Nat → String) (i : Nat) (l : String)
       (rest : List String) (p : Nat) (g1 : List Char),
       searchAB (pyStrip l).toList = some (p, g1) →
       (firstFrDate (rest.take 3) = none →
          wiseGo uid acct cur mkId i (l :: rest)
            = ((wiseGo uid acct cur mkId (i + 1) rest).1,
               ("Date introuvable pour: "
                  ++ String.mk ((pyStrip (String.mk ((pyStrip l).toList.take p))).toList.take 50)
                  ++ "...")
                 :: (wiseGo uid acct cur mkId (i + 1) rest).2))
       ∧ (∀ (d : DateTime) (a : Rat), firstFrDate (rest.take 3) = some d →
          parse_amount (String.mk g1) = .ok a →
          wiseGo uid acct cur mkId i (l :: rest)
            = ({ id := mkId i, user_id := uid, account_id := acct, amount := a,
                 currency := cur, date := d,
                 description :=
                   if pyStrip (String.mk ((pyStrip l).toList.take p)) = ""
                   then "Transaction"
                   else pyStrip (String.mk ((pyStrip l).toList.take p)),
                 is_manual := false, status := .completed }
                 :: (wiseGo uid acct cur mkId (i + 1) rest).1,
               (wiseGo uid acct cur mkId (i + 1) rest).2))) := by
  refine ⟨?_, ?_, ?_, ?_⟩
  · intro pages uid acct cur ids now
    simp [pdf_text_mode, List.isEmpty_iff]
  · intro pages uid acct cur ids now h
    simp only [parse_pdf]
    rw [if_neg h]
    simp [h]
  · intro pages uid acct cur ids now h ht
    simp only [parse_pdf]
    rw [if_pos h, if_pos ht]
  · intro uid acct cur mkId i l rest p g1 hsearch
    simp only [String.toList] at hsearch
    constructor
    · intro hdate
      simp [wiseGo, hsearch, hdate]
    · intro d a hdate hamount
      simp [wiseGo, hsearch, hdate, hamount]

/-- Witness for C7 (amended) at the concrete mixed page. -/
theorem c7_pdf_text_mode_witness :
    (parse_pdf_table_pass "u" "a" "EUR" idsX now0 1 [wisePage]).1 = []
    ∧ pyStrip (pdfAllText [wisePage]) ≠ ""
    ∧ parse_pdf [wisePage] "u" "a" "EUR" idsX now0
        = (if (parse_wise_text (pdfAllText [wisePage]) "u" "a" "EUR" idsX.textId).1 = []
              && (parse_wise_text (pdfAllText [wisePage]) "u" "a" "EUR" idsX.textId).2 = [] then
             ([], ["Aucune transaction trouvee dans le PDF"])
           else parse_wise_text (pdfAllText [wisePage]) "u" "a" "EUR" idsX.textId) :=
  ⟨by decide, by decide,
   c7_pdf_text_mode.2.2.1 [wisePage] "u" "a" "EUR" idsX now0 (by decide) (by decide)⟩

end FinOpt
